import Mathlib

/-
Verification of the sync engine in scripts/sync_to_servicenow.py
(repository senior-connect-data).

Modelling conventions:
- Python strings are modelled as `List Char` (named `Str`); `str.strip()`,
  `str.lower()`, `in`, `split(sep)[0]`, `endswith`, `replace(a, "")` are
  re-implemented over lists, matching CPython on the ASCII data the script
  handles (Python strips a few more exotic unicode spaces; irrelevant here).
- Python dicts of string fields (the records the script builds and posts)
  are association lists `List (Str × Str)`; `d.get(k, default)` is
  `getD`, `k in d` is `hasKey`.
- Python float parsing/printing (`float(s)`, `str(x)`, `int(x)`) is modelled
  with exact decimal arithmetic (the `Dec` type, a mantissa with a power of
  ten scale) over finite decimal literals with optional exponent: `pyFloat?`
  accepts exactly the sign/digits/point/exponent forms, and rendering
  produces the shortest plain decimal. Binary64 rounding,
  overflow, "inf"/"nan" literal forms, underscore separators and
  exponent-form rendering of extreme magnitudes are abstracted away; on the
  short decimal values this data set carries, binary64 is exact and the
  model agrees with CPython.
- Remote I/O is explicit: the GET of existing records is an
  `Except Unit (List RRec)` value (error = transport failure), and the POST
  outcome of each create is an oracle `createOk : Rec → Bool`; the loop
  records which creates were attempted and which succeeded.
-/

/-- Python-style string: a list of characters. -/
abbrev Str := List Char

/-- Shorthand turning a Lean string literal into the `Str` model. -/
def S (s : String) : Str := s.toList

/-- Whitespace characters stripped by Python `str.strip()` (ASCII part). -/
def isPySpace (c : Char) : Bool :=
  c = ' ' || c = '\t' || c = '\n' || c = '\r' || c = '\x0b' || c = '\x0c'

/-- Drop leading whitespace. -/
def stripL (l : Str) : Str := l.dropWhile isPySpace

/-- Python `str.strip()`: drop leading and trailing whitespace. -/
def pyStrip (l : Str) : Str := (stripL (stripL l).reverse).reverse

/-- Lower-case one ASCII character, as Python `str.lower()` does. -/
def lowerChar (c : Char) : Char :=
  if 'A' ≤ c && c ≤ 'Z' then Char.ofNat (c.toNat + 32) else c

/-- Python `str.lower()`. -/
def pyLower (l : Str) : Str := l.map lowerChar

/-- Does `pat` occur at the start of `l`? -/
def leadsWith : Str → Str → Bool
  | [], _ => true
  | _ :: _, [] => false
  | a :: as, b :: bs => a == b && leadsWith as bs

/-- Python substring test `pat in l`. -/
def hasSub (pat : Str) : Str → Bool
  | [] => pat = []
  | c :: rest => leadsWith pat (c :: rest) || hasSub pat rest

/-- Fuel-driven scan for `removeAll`; the fuel starts at the length of
the string and never runs out before the string does, since every step
consumes at least one character. -/
def removeAllFuel (pat : Str) : Nat → Str → Str
  | 0, l => l
  | _ + 1, [] => []
  | f + 1, c :: rest =>
    if pat ≠ [] && leadsWith pat (c :: rest) then
      removeAllFuel pat f (rest.drop (pat.length - 1))
    else
      c :: removeAllFuel pat f rest

/-- Python `l.replace(pat, "")`: delete every (left-to-right, non
overlapping) occurrence of a non-empty `pat`. -/
def removeAll (pat : Str) (l : Str) : Str := removeAllFuel pat l.length l

/-- Python `l.split(sep)[0]` for a single-character separator: the prefix
before the first occurrence. -/
def beforeFirst (sep : Char) (l : Str) : Str := l.takeWhile (fun c => c ≠ sep)

/-- Python `l.endswith(z)` for a single character. -/
def endsIn (z : Char) (l : Str) : Bool := l.getLast? == some z

/-- Decimal digit test. -/
def isDigitCh (c : Char) : Bool := '0' ≤ c && c ≤ '9'

/-- The character for one decimal digit. -/
def digitChar10 (d : Nat) : Char := Char.ofNat (48 + d)

/-- Decimal digits of `n`, least significant first, driven by fuel. -/
def natDigitsRev (fuel n : Nat) : List Nat :=
  match fuel with
  | 0 => []
  | f + 1 => if n = 0 then [] else (n % 10) :: natDigitsRev f (n / 10)

/-- Python `str(n)` for a natural number. -/
def natStr (n : Nat) : Str :=
  if n = 0 then ['0'] else ((natDigitsRev n n).map digitChar10).reverse

/-- Python `str(z)` for an integer. -/
def intStr (z : Int) : Str :=
  if z < 0 then '-' :: natStr z.natAbs else natStr z.natAbs

/-- Value of a big-endian digit list. -/
def listVal (ds : List Nat) : Nat := ds.foldl (fun a d => 10 * a + d) 0

/-- Numeric value of a string of digit characters. -/
def digitsVal (l : Str) : Nat := l.foldl (fun a c => 10 * a + (c.toNat - 48)) 0

/-- Parse a non-empty all-digit string to a natural number. -/
def parseNatDigits (l : Str) : Option Nat :=
  if l ≠ [] && l.all isDigitCh then some (digitsVal l) else none

/-- A float value, represented exactly as the decimal `num / 10 ^ scale`.
All floats the script meets come from decimal literals, so this exact
representation is faithful where binary64 is (short decimals). -/
structure Dec where
  num : Int
  scale : Nat
deriving DecidableEq

/-- Canonicalize a decimal: strip factors of ten shared between the
mantissa and the scale. -/
def decCanon (z : Int) : Nat → Dec
  | 0 => ⟨z, 0⟩
  | s + 1 => if z % 10 == 0 then decCanon (z / 10) s else ⟨z, s + 1⟩

/-- Build the decimal value `±m · 10^k` in canonical form. -/
def mkDec (neg : Bool) (m : Nat) (k : Int) : Dec :=
  let z : Int := if neg then -(m : Int) else (m : Int)
  if 0 ≤ k then ⟨z * 10 ^ k.toNat, 0⟩ else decCanon z (-k).toNat

/-- Model of Python `float(s)` restricted to finite decimal literals:
optional surrounding whitespace, optional sign, digits with at most one
point (at least one digit overall), optional exponent. Returns the exact
decimal value; "inf"/"nan" literals and underscore separators are
rejected rather than modelled. -/
def pyFloat? (s : Str) : Option Dec :=
  let t := pyStrip s
  let neg := t.head? == some '-'
  let t1 := if t.head? == some '-' || t.head? == some '+' then t.tail else t
  let mant := t1.takeWhile (fun c => c ≠ 'e' && c ≠ 'E')
  let expPart := t1.drop mant.length
  let expVal : Option Int :=
    if expPart = [] then some 0
    else
      let ds0 := expPart.tail
      if ds0.head? == some '+' then (parseNatDigits ds0.tail).map (fun n => (n : Int))
      else if ds0.head? == some '-' then
        (parseNatDigits ds0.tail).map (fun n => -(n : Int))
      else (parseNatDigits ds0).map (fun n => (n : Int))
  match expVal with
  | none => none
  | some e =>
    let ip := mant.takeWhile (fun c => c ≠ '.')
    let rest := mant.drop ip.length
    if rest = [] then
      match parseNatDigits ip with
      | some m => some (mkDec neg m e)
      | none => none
    else if rest.head? == some '.' then
      let fr := rest.tail
      if ip.all isDigitCh && fr.all isDigitCh && (ip ≠ [] || fr ≠ []) then
        some (mkDec neg (digitsVal (ip ++ fr)) (e - fr.length))
      else none
    else none

/-- Digit characters of the fractional part `f`, left-padded to `k`. -/
def fracStr (f k : Nat) : Str :=
  List.replicate (k - (natStr f).length) '0' ++ natStr f

/-- Shortest plain decimal rendering of a non-integral decimal value; this
is what Python `str(x)` prints for a float of moderate size (integral
values are handled separately by the callers, which mirror the
`x == int(x)` tests of the script). -/
def decRender (q : Dec) : Str :=
  if q.scale = 0 then intStr q.num
  else
    let m := q.num.natAbs
    (if q.num < 0 then ['-'] else []) ++
      natStr (m / 10 ^ q.scale) ++ '.' :: fracStr (m % 10 ^ q.scale) q.scale

/-- Python `str(x)` for a float value `x`: integral floats print with a
trailing ".0". -/
def pyStrFloat (q : Dec) : Str :=
  if q.scale = 0 then intStr q.num ++ S ".0" else decRender q

/-- The sentinel strings which `normalize_value` maps to the empty
string. -/
def normSentinels : List Str := [S "nan", S "nat", S "none", S "null"]

/-- Embedding of `ServiceNowSync.normalize_value` (lines 336-371): strip,
map nan/nat/none/null sentinels to "", clean time-of-day strings
(drop fractional seconds, timezone offset, trailing Z), then render
numeric strings canonically, else return the cleaned string. -/
def normalize_value (value : Str) : Str :=
  if value = [] then []
  else
    let v0 := pyStrip value
    if pyLower v0 ∈ normSentinels then []
    else
      let v1 :=
        if v0.contains ':' && decide (5 < v0.length) then
          let a := if v0.contains '.' then beforeFirst '.' v0 else v0
          let b := if a.contains '+' then pyStrip (beforeFirst '+' a) else a
          if endsIn 'Z' b then pyStrip b.dropLast else b
        else v0
      match pyFloat? v1 with
      | some q => if q.scale = 0 then intStr q.num else decRender q
      | none => v1

/-- A record the script builds or fetches: a Python dict of string fields,
as an association list in insertion order. -/
abbrev Rec := List (Str × Str)

/-- Python `d.get(k, default)`. -/
def getD (r : Rec) (k : Str) (d : Str) : Str := ((r.lookup k).getD d)

/-- Python `k in d`. -/
def hasKey (r : Rec) (k : Str) : Bool := (r.lookup k).isSome

/-- Join key components with the "|" delimiter, as the f-strings at lines
399, 411, 475 and 486 do. -/
def pipeJoin : List Str → Str
  | [] => []
  | [x] => x
  | x :: xs => x ++ '|' :: pipeJoin xs

/-- Identity key an alert candidate gets in `sync_records`
(lines 469-475): all six fields, normalized, joined with "|". -/
def alertIdent (r : Rec) : Str :=
  pipeJoin
    [normalize_value (getD r (S "alert_date") []),
     normalize_value (getD r (S "alert_time") []),
     normalize_value (getD r (S "location") []),
     normalize_value (getD r (S "severity") []),
     normalize_value (getD r (S "message") []),
     normalize_value (getD r (S "sensor_type_id") [])]

/-- Identity key an alert remote record gets in `get_existing_records`
(lines 393-399). -/
def alertIdentFetch (r : Rec) : Str :=
  pipeJoin
    [normalize_value (getD r (S "alert_date") []),
     normalize_value (getD r (S "alert_time") []),
     normalize_value (getD r (S "location") []),
     normalize_value (getD r (S "severity") []),
     normalize_value (getD r (S "message") []),
     normalize_value (getD r (S "sensor_type_id") [])]

/-- Identity key a sensor candidate gets in `sync_records`
(lines 478-486); note the default "false" for `is_active`. -/
def sensorIdent (r : Rec) : Str :=
  pipeJoin
    [normalize_value (getD r (S "record_date") []),
     normalize_value (getD r (S "record_time") []),
     normalize_value (getD r (S "location") []),
     normalize_value (getD r (S "sensor_type_id") []),
     normalize_value (getD r (S "status") []),
     normalize_value (getD r (S "numeric_value") []),
     normalize_value (getD r (S "text_value") []),
     normalize_value (getD r (S "is_active") (S "false"))]

/-- Identity key a sensor remote record gets in `get_existing_records`
(lines 402-411); note the default "" for `is_active`, unlike line 485. -/
def sensorIdentFetch (r : Rec) : Str :=
  pipeJoin
    [normalize_value (getD r (S "record_date") []),
     normalize_value (getD r (S "record_time") []),
     normalize_value (getD r (S "location") []),
     normalize_value (getD r (S "sensor_type_id") []),
     normalize_value (getD r (S "status") []),
     normalize_value (getD r (S "numeric_value") []),
     normalize_value (getD r (S "text_value") []),
     normalize_value (getD r (S "is_active") [])]

/-- A remote record as returned by the ServiceNow list call: its opaque
`sys_id` plus the fields the key builder reads. -/
structure RRec where
  sysId : Str
  fields : Rec
deriving DecidableEq

/-- The normalized date of a candidate, per table (lines 469/478). -/
def normDate (isAlert : Bool) (r : Rec) : Str :=
  normalize_value (getD r (if isAlert then S "alert_date" else S "record_date") [])

/-- The normalized time of a candidate, per table (lines 470/479). -/
def normTime (isAlert : Bool) (r : Rec) : Str :=
  normalize_value (getD r (if isAlert then S "alert_time" else S "record_time") [])

/-- The identity key of a candidate, per table (lines 468-486). -/
def identOf (isAlert : Bool) (r : Rec) : Str :=
  if isAlert then alertIdent r else sensorIdent r

/-- The identity key of a fetched remote record, per table
(lines 392-411). -/
def identFetchOf (isAlert : Bool) (r : Rec) : Str :=
  if isAlert then alertIdentFetch r else sensorIdentFetch r

/-- Embedding of `ServiceNowSync.get_existing_records` (lines 373-422):
list the remote table and index key → sys_id; on transport failure
(`requests.exceptions.RequestException`), return the empty index instead
of propagating (lines 419-422). The `if key:` truthiness test at line 413
is the emptiness test on the key string. -/
def get_existing_records (isAlert : Bool)
    (fetch : Except Unit (List RRec)) : List (Str × Str) :=
  match fetch with
  | .error _ => []
  | .ok rs =>
    rs.filterMap (fun rr =>
      let key := identFetchOf isAlert rr.fields
      if key = [] then none else some (key, rr.sysId))

/-- Outcome of one `sync_records` call: the three counters it returns,
whether the existing-record fetch ran, which records a create was
attempted for (POST issued), and which creates succeeded. -/
structure SyncResult where
  created : Nat
  skipped : Nat
  failed : Nat
  fetched : Bool
  attempts : List Rec
  posted : List Rec
deriving DecidableEq

/-- The per-record loop of `sync_records` (lines 466-502): compute the
identity key, reject (failed) when normalized date or time is empty, skip
when the key is in the prefetched index, else attempt the create and count
success or failure from the transport oracle `createOk`. -/
def syncLoop (isAlert : Bool) (existing : List (Str × Str))
    (createOk : Rec → Bool) : List Rec → SyncResult
  | [] => ⟨0, 0, 0, true, [], []⟩
  | r :: rest =>
    let out := syncLoop isAlert existing createOk rest
    if (normDate isAlert r).isEmpty || (normTime isAlert r).isEmpty then
      { out with failed := out.failed + 1 }
    else if (existing.lookup (identOf isAlert r)).isSome then
      { out with skipped := out.skipped + 1 }
    else if createOk r then
      { out with created := out.created + 1,
                  attempts := r :: out.attempts, posted := r :: out.posted }
    else
      { out with failed := out.failed + 1, attempts := r :: out.attempts }

/-- Embedding of `ServiceNowSync.sync_records` (lines 454-507): an empty
candidate list returns (0, 0, 0) before any fetch; otherwise the existing
index is fetched once and every candidate is processed in order. -/
def sync_records (isAlert : Bool) (fetch : Except Unit (List RRec))
    (createOk : Rec → Bool) (records : List Rec) : SyncResult :=
  if records = [] then ⟨0, 0, 0, false, [], []⟩
  else syncLoop isAlert (get_existing_records isAlert fetch) createOk records

/-- One reconciler run against a stateful mock store in which every create
succeeds and echoes the posted fields: the run syncs against the current
store contents and the store then holds the created records as well. -/
def runOnce (isAlert : Bool) (store : List RRec) (records : List Rec) :
    SyncResult × List RRec :=
  let out := sync_records isAlert (Except.ok store) (fun _ => true) records
  (out, store ++ out.posted.map (fun r => ⟨[], r⟩))

/-- The date/time-shape test at line 297: contains a colon, or is at least
8 characters long with at least two dashes. -/
def isDateish (v : Str) : Bool :=
  v.contains ':' || (decide (8 ≤ v.length) && decide (2 ≤ v.countP (fun c => c == '-')))

/-- The unit-suffix cleanup at line 304: drop every "%", "°C", "°F" and
"°" occurrence, then strip. -/
def cleanValue (v : Str) : Str :=
  pyStrip (removeAll (S "°") (removeAll (S "°F") (removeAll (S "°C") (removeAll (S "%") v))))

/-- The value classification of `transform_sensor_data` (lines 290-309):
returns (numeric_value, text_value) as the loop body leaves them. -/
def classifyValue (v : Str) : Str × Str :=
  let vs := pyStrip v
  if vs ∈ [S "nan", S "NaT", S "", S "None"] then ([], [])
  else if isDateish vs then ([], vs)
  else
    match pyFloat? (cleanValue vs) with
    | some q => (pyStrFloat q, [])
    | none => ([], vs)

/-- The truthiness filter applied to every record dict (lines 254, 328):
keep a field only when non-empty and neither "nan" nor "NaT". -/
def dropEmptyFields (r : Rec) : Rec :=
  r.filter (fun p => p.2 ≠ [] && p.2 ≠ S "nan" && p.2 ≠ S "NaT")

/-- One iteration of the `transform_sensor_data` loop (lines 280-331):
map the row to a sensor record, attach at most one of
numeric_value / text_value, drop empty fields, and keep the record only
when more than two fields survive. -/
def mapSensorRow (sensorTypeId : Str) (row : Rec) : Option Rec :=
  let nv_tv := classifyValue (getD row (S "Value") [])
  let valueField : Rec :=
    if nv_tv.1 ≠ [] && nv_tv.1 ≠ S "nan" then [(S "numeric_value", nv_tv.1)]
    else if nv_tv.2 ≠ [] && nv_tv.2 ≠ S "nan" then [(S "text_value", nv_tv.2)]
    else []
  let record := dropEmptyFields
    ([(S "sensor_type_id", sensorTypeId),
      (S "record_date", getD row (S "Date") []),
      (S "record_time", getD row (S "Timestamp") []),
      (S "location", getD row (S "Location") []),
      (S "status", getD row (S "Status") []),
      (S "is_active", S "false")] ++ valueField)
  if 2 < record.length then some record else none

/-- Embedding of `ServiceNowSync.transform_sensor_data` (lines 262-334)
with the sheet-level sensor type id already resolved. -/
def transform_sensor_data (sensorTypeId : Str) (rows : List Rec) : List Rec :=
  rows.filterMap (mapSensorRow sensorTypeId)

/-- A sensor sheet row for the hour filter: the pandas timestamp parse of
its Timestamp cell, as `some (day, hour, minute)` when parseable and
`none` when the coerced parse yields NaT, plus a tag distinguishing
rows. -/
structure SRow where
  ts : Option (Nat × Nat × Nat)
  tag : Nat
deriving DecidableEq

/-- The hour component of a parsed row (pandas `.dt.hour`). -/
def hourOf (r : SRow) : Nat :=
  match r.ts with
  | some (_, h, _) => h
  | none => 0

/-- The calendar-day component of a parsed row. -/
def dayOf (r : SRow) : Nat :=
  match r.ts with
  | some (d, _, _) => d
  | none => 0

/-- The minute component of a parsed row. -/
def minuteOf (r : SRow) : Nat :=
  match r.ts with
  | some (_, _, m) => m
  | none => 0

/-- Embedding of `ServiceNowSync.filter_sensor_data_by_hour`
(lines 119-176) for a sheet that has a Timestamp column: coerce-parse the
timestamps and drop the unparseable rows, then append the first row whose
hour equals 12 and the first row whose hour equals 20, in that order. -/
def filter_sensor_data_by_hour (rows : List SRow) : List SRow :=
  let valid := rows.filter (fun r => r.ts.isSome)
  let rows12 := valid.filter (fun r => hourOf r == 12)
  let rows20 := valid.filter (fun r => hourOf r == 20)
  rows12.take 1 ++ rows20.take 1

/-- Is target instant `t` (hour, minute) at or before the time of day of
row `r`? -/
def todAtOrAfter (t : Nat × Nat) (r : SRow) : Bool :=
  t.1 < hourOf r || (t.1 == hourOf r && t.2 ≤ minuteOf r)

/-- Drop a selection whose timestamp equals the immediately preceding
selection. -/
def dedupAdjacent (prev : SRow) : List SRow → List SRow
  | [] => []
  | b :: bs => if b.ts == prev.ts then dedupAdjacent prev bs
               else b :: dedupAdjacent b bs

/-- Start of the adjacent-duplicate-timestamp guard. -/
def dedupAdjacentStart : List SRow → List SRow
  | [] => []
  | a :: rest => a :: dedupAdjacent a rest

/-- Window sampler written from the words of the spec (section 4.2), for
comparison with the code: drop unparseable rows; group by calendar date;
per date sort ascending by timestamp; for each target instant select the
first row whose time of day is at or after the instant; order selections
by target instant then date; drop a selection repeating the immediately
preceding timestamp. -/
def specWindowSample (targets : List (Nat × Nat)) (rows : List SRow) : List SRow :=
  let valid := rows.filter (fun r => r.ts.isSome)
  let days := ((valid.map dayOf).dedup).insertionSort (fun a b => a ≤ b)
  let picks := targets.flatMap (fun t =>
    days.flatMap (fun d =>
      let grp := (valid.filter (fun r => dayOf r == d)).insertionSort
        (fun a b => hourOf a * 60 + minuteOf a ≤ hourOf b * 60 + minuteOf b)
      (grp.filter (todAtOrAfter t)).take 1))
  dedupAdjacentStart picks

/-- Embedding of `ServiceNowSync.get_sensor_type_id_for_sheet`
(lines 178-218): the mmwave substring special case runs first (with its
own default "SENSOR 5"), then exact type-name match, then
case-insensitive match, then the default "SENSOR 1". The sensor-type
cache is an association list type_name → sensor_type_id in fetch
order. -/
def get_sensor_type_id_for_sheet (sensorTypes : List (Str × Str))
    (sheetName : Str) : Str :=
  let nrm := pyStrip sheetName
  let low := pyLower nrm
  if hasSub (S "mmwave") low then
    match sensorTypes.find? (fun p => pyLower p.1 == S "mmwave") with
    | some p => p.2
    | none => S "SENSOR 5"
  else
    match sensorTypes.lookup nrm with
    | some v => v
    | none =>
      match sensorTypes.find? (fun p => pyLower p.1 == low) with
      | some p => p.2
      | none => S "SENSOR 1"

/-- Sheet-name resolution written from the amended ordering: the mmwave
family rule first, then exact, then case-insensitive, then the default. -/
def resolveSheetAmended (sensorTypes : List (Str × Str))
    (sheetName : Str) : Str :=
  let nrm := pyStrip sheetName
  let low := pyLower nrm
  if hasSub (S "mmwave") low then
    (((sensorTypes.find? (fun p => pyLower p.1 == S "mmwave")).map
        (fun p => p.2)).getD (S "SENSOR 5"))
  else
    ((((sensorTypes.lookup nrm).orElse
        (fun _ => (sensorTypes.find? (fun p => pyLower p.1 == low)).map
          (fun p => p.2)))).getD (S "SENSOR 1"))

/-- Total created over the per-sheet results of a run (line 573). -/
def totalCreated (results : List (Nat × Nat × Nat)) : Nat :=
  (results.map (fun t => t.1)).sum

/-- Total failed over the per-sheet results of a run (line 575). -/
def totalFailed (results : List (Nat × Nat × Nat)) : Nat :=
  (results.map (fun t => t.2.2)).sum

/-- Embedding of the exit decision of `main` (lines 586-598): exit 1 when
some record failed and none was created, else exit 0 (partial failure
still exits 0). Each list entry is one sheet result
(created, skipped, failed). -/
def main_exit (results : List (Nat × Nat × Nat)) : Nat :=
  if 0 < totalFailed results && totalCreated results == 0 then 1 else 0

theorem stripL_cons_not (l : Str) (c : Char) (t : Str)
    (h : stripL l = c :: t) : isPySpace c = false := by
  induction l with
  | nil => simp [stripL] at h
  | cons a rest ih =>
    by_cases ha : isPySpace a
    · exact ih (by simpa [stripL, List.dropWhile_cons, ha] using h)
    · simp [stripL, List.dropWhile_cons, ha] at h
      simp [← h.1, ha]

theorem stripL_of_head (m : Str)
    (h : ∀ c t, m = c :: t → isPySpace c = false) : stripL m = m := by
  cases m with
  | nil => rfl
  | cons c t => simp [stripL, List.dropWhile_cons, h c t rfl]

theorem mem_stripL (c : Char) (l : Str) (h : c ∈ stripL l) : c ∈ l :=
  (List.dropWhile_suffix isPySpace).sublist.mem h

theorem mem_pyStrip (c : Char) (l : Str) (h : c ∈ pyStrip l) : c ∈ l := by
  have h1 := List.mem_reverse.mp h
  have h2 := mem_stripL c (stripL l).reverse h1
  exact mem_stripL c l (List.mem_reverse.mp h2)

theorem pyStrip_of_all (l : Str)
    (h : ∀ c ∈ l, isPySpace c = false) : pyStrip l = l := by
  have h1 : stripL l = l := by
    apply stripL_of_head
    intro c t hct
    exact h c (by simp [hct])
  have h2 : stripL l.reverse = l.reverse := by
    apply stripL_of_head
    intro c t hct
    exact h c (List.mem_reverse.mp (by simp [hct]))
  simp [pyStrip, h1, h2]

theorem stripL_head?_not (m : Str) (c : Char)
    (h : (stripL m).head? = some c) : isPySpace c = false := by
  cases hs : stripL m with
  | nil => rw [hs] at h; simp at h
  | cons a t =>
    rw [hs] at h
    simp at h
    subst h
    exact stripL_cons_not m a t hs

theorem getLast?_stripL (m : Str) (h : stripL m ≠ []) :
    (stripL m).getLast? = m.getLast? := by
  obtain ⟨pre, hpre⟩ := List.dropWhile_suffix (l := m) isPySpace
  have hpre2 : pre ++ stripL m = m := hpre
  calc (stripL m).getLast? = (pre ++ stripL m).getLast? :=
        (List.getLast?_append_of_ne_nil pre h).symm
    _ = m.getLast? := by rw [hpre2]

theorem pyStrip_head?_not (l : Str) (c : Char)
    (h : (pyStrip l).head? = some c) : isPySpace c = false := by
  by_cases hne : stripL (stripL l).reverse = []
  · have hnil : pyStrip l = [] := by simp [pyStrip, hne]
    rw [hnil] at h
    simp at h
  · have e1 : (pyStrip l).head? = (stripL (stripL l).reverse).getLast? := by
      simp [pyStrip, List.head?_reverse]
    rw [e1, getLast?_stripL _ hne, List.getLast?_reverse] at h
    exact stripL_head?_not l c h

theorem pyStrip_getLast?_not (l : Str) (c : Char)
    (h : (pyStrip l).getLast? = some c) : isPySpace c = false := by
  have e1 : (pyStrip l).getLast? = (stripL (stripL l).reverse).head? := by
    simp [pyStrip, List.getLast?_reverse]
  rw [e1] at h
  exact stripL_head?_not (stripL l).reverse c h

theorem pyStrip_idem (l : Str) : pyStrip (pyStrip l) = pyStrip l := by
  have h1 : stripL (pyStrip l) = pyStrip l := by
    apply stripL_of_head
    intro c t hct
    exact pyStrip_head?_not l c (by rw [hct]; rfl)
  have h2 : stripL (pyStrip l).reverse = (pyStrip l).reverse := by
    apply stripL_of_head
    intro c t hct
    apply pyStrip_getLast?_not l c
    rw [← List.head?_reverse, hct]
    rfl
  calc pyStrip (pyStrip l)
      = (stripL (stripL (pyStrip l)).reverse).reverse := rfl
    _ = (stripL (pyStrip l).reverse).reverse := by rw [h1]
    _ = (pyStrip l).reverse.reverse := by rw [h2]
    _ = pyStrip l := List.reverse_reverse _

theorem not_contains_iff (l : Str) (c : Char) :
    l.contains c = false ↔ c ∉ l := by
  rw [List.contains]
  constructor
  · intro h hc
    have := List.elem_iff.mpr hc
    rw [this] at h
    exact Bool.true_eq_false.mp h
  · intro h
    by_cases he : List.elem c l
    · exact absurd (List.elem_iff.mp he) h
    · simpa using he

theorem contains_mono_pyStrip (l : Str) (c : Char)
    (h : l.contains c = false) : (pyStrip l).contains c = false := by
  rw [not_contains_iff] at h ⊢
  intro hc
  exact h (mem_pyStrip c l hc)

theorem digitChar10_facts (d : Nat) (h : d < 10) :
    isDigitCh (digitChar10 d) = true ∧ isPySpace (digitChar10 d) = false ∧
    lowerChar (digitChar10 d) = digitChar10 d ∧ (digitChar10 d).toNat - 48 = d := by
  interval_cases d <;> exact ⟨by decide, by decide, by decide, by decide⟩

theorem digitChar10_ne (d : Nat) (h : d < 10) :
    digitChar10 d ≠ ':' ∧ digitChar10 d ≠ '.' ∧ digitChar10 d ≠ '-' ∧
    digitChar10 d ≠ '+' ∧ digitChar10 d ≠ 'e' ∧ digitChar10 d ≠ 'E' ∧
    digitChar10 d ≠ 'Z' ∧ digitChar10 d ≠ 'n' := by
  interval_cases d <;>
    exact ⟨by decide, by decide, by decide, by decide, by decide, by decide,
      by decide, by decide⟩

theorem natDigitsRev_lt (fuel : Nat) : ∀ n, ∀ d ∈ natDigitsRev fuel n, d < 10 := by
  induction fuel with
  | zero => intro n d hd; simp [natDigitsRev] at hd
  | succ f ih =>
    intro n d hd
    by_cases hn : n = 0
    · simp [natDigitsRev, hn] at hd
    · simp only [natDigitsRev, hn, if_false, List.mem_cons] at hd
      rcases hd with hd | hd
      · subst hd; exact Nat.mod_lt _ (by omega)
      · exact ih (n / 10) d hd

theorem foldl_val (l : List Nat) (a : Nat) :
    l.foldl (fun x d => 10 * x + d) a = a * 10 ^ l.length + listVal l := by
  induction l generalizing a with
  | nil => simp [listVal]
  | cons d t ih =>
    have h1 : listVal (d :: t) = d * 10 ^ t.length + listVal t := by
      have : listVal (d :: t) = t.foldl (fun x d => 10 * x + d) d := by
        simp [listVal]
      rw [this, ih d]
    simp only [List.foldl_cons, List.length_cons]
    rw [ih (10 * a + d), h1]
    ring

theorem listVal_append_last (xs : List Nat) (d : Nat) :
    listVal (xs ++ [d]) = 10 * listVal xs + d := by
  simp [listVal, List.foldl_append]

theorem listVal_natDigitsRev (fuel : Nat) : ∀ n, n ≤ fuel →
    listVal (natDigitsRev fuel n).reverse = n := by
  induction fuel with
  | zero => intro n h; interval_cases n; simp [natDigitsRev, listVal]
  | succ f ih =>
    intro n h
    by_cases hn : n = 0
    · simp [natDigitsRev, hn, listVal]
    · simp only [natDigitsRev, hn, if_false, List.reverse_cons]
      rw [listVal_append_last]
      rw [ih (n / 10) (by omega)]
      omega

theorem natDigitsRev_len (fuel : Nat) : ∀ n k, n ≤ fuel → n < 10 ^ k →
    (natDigitsRev fuel n).length ≤ k := by
  induction fuel with
  | zero => intro n k h hk; simp [natDigitsRev]
  | succ f ih =>
    intro n k h hk
    by_cases hn : n = 0
    · simp [natDigitsRev, hn]
    · have hk1 : 1 ≤ k := by
        by_contra hc
        interval_cases k
        omega
      simp only [natDigitsRev, hn, if_false, List.length_cons]
      have hdiv : n / 10 < 10 ^ (k - 1) := by
        rw [Nat.div_lt_iff_lt_mul (by omega)]
        calc n < 10 ^ k := hk
          _ = 10 ^ (k - 1) * 10 := by
            rw [← pow_succ]
            congr 1
            omega
      have := ih (n / 10) (k - 1) (by omega) hdiv
      omega

theorem natStr_chars (n : Nat) :
    ∀ c ∈ natStr n, ∃ d, d < 10 ∧ c = digitChar10 d := by
  intro c hc
  by_cases hn : n = 0
  · simp [natStr, hn] at hc
    exact ⟨0, by omega, by rw [hc]; rfl⟩
  · simp only [natStr, hn, if_false, List.mem_reverse, List.mem_map] at hc
    obtain ⟨d, hd, hdc⟩ := hc
    exact ⟨d, natDigitsRev_lt n n d hd, hdc.symm⟩

theorem natStr_ne_nil (n : Nat) : natStr n ≠ [] := by
  by_cases hn : n = 0
  · simp [natStr, hn]
  · simp only [natStr, hn, if_false]
    intro h
    rw [List.reverse_eq_nil_iff, List.map_eq_nil_iff] at h
    have : listVal (natDigitsRev n n).reverse = n := listVal_natDigitsRev n n le_rfl
    rw [h] at this
    simp [listVal] at this
    exact hn this.symm

theorem natStr_all_digits (n : Nat) : (natStr n).all isDigitCh = true := by
  rw [List.all_eq_true]
  intro c hc
  obtain ⟨d, hd, hdc⟩ := natStr_chars n c hc
  rw [hdc]
  exact (digitChar10_facts d hd).1

theorem digitsVal_map_digits (ds : List Nat) (h : ∀ d ∈ ds, d < 10) :
    ∀ a : Nat, (ds.map digitChar10).foldl (fun x c => 10 * x + (c.toNat - 48)) a
      = ds.foldl (fun x d => 10 * x + d) a := by
  induction ds with
  | nil => intro a; rfl
  | cons d t ih =>
    intro a
    simp only [List.map_cons, List.foldl_cons]
    rw [(digitChar10_facts d (h d (by simp))).2.2.2]
    exact ih (fun e he => h e (by simp [he])) (10 * a + d)

theorem digitsVal_natStr (n : Nat) : digitsVal (natStr n) = n := by
  by_cases hn : n = 0
  · simp [natStr, hn]
    decide
  · simp only [natStr, hn, if_false, digitsVal]
    rw [← List.map_reverse]
    rw [digitsVal_map_digits _ (fun d hd => natDigitsRev_lt n n d (List.mem_reverse.mp hd)) 0]
    exact listVal_natDigitsRev n n le_rfl

theorem parseNatDigits_natStr (n : Nat) : parseNatDigits (natStr n) = some n := by
  simp only [parseNatDigits]
  rw [if_pos]
  · rw [digitsVal_natStr n]
  · rw [Bool.and_eq_true]
    exact ⟨by simpa using natStr_ne_nil n, natStr_all_digits n⟩

theorem natStr_len_le (n k : Nat) (h : n < 10 ^ k) (hk : 1 ≤ k) :
    (natStr n).length ≤ k := by
  by_cases hn : n = 0
  · simp [natStr, hn]
    omega
  · simp only [natStr, hn, if_false, List.length_reverse, List.length_map]
    exact natDigitsRev_len n n k le_rfl h

theorem digitsVal_foldl_acc (l : Str) :
    ∀ a : Nat, l.foldl (fun x c => 10 * x + (c.toNat - 48)) a
      = a * 10 ^ l.length + digitsVal l := by
  induction l with
  | nil => intro a; simp [digitsVal]
  | cons c t ih =>
    intro a
    have hval : digitsVal (c :: t) = (c.toNat - 48) * 10 ^ t.length + digitsVal t := by
      have : digitsVal (c :: t)
          = t.foldl (fun x c => 10 * x + (c.toNat - 48)) (c.toNat - 48) := by
        simp [digitsVal]
      rw [this, ih (c.toNat - 48)]
    simp only [List.foldl_cons, List.length_cons]
    rw [ih (10 * a + (c.toNat - 48)), hval]
    ring

theorem digitsVal_append (l1 l2 : Str) :
    digitsVal (l1 ++ l2) = digitsVal l1 * 10 ^ l2.length + digitsVal l2 := by
  have : digitsVal (l1 ++ l2)
      = l2.foldl (fun x c => 10 * x + (c.toNat - 48)) (digitsVal l1) := by
    simp [digitsVal, List.foldl_append]
  rw [this, digitsVal_foldl_acc l2 (digitsVal l1)]

theorem digitsVal_replicate_zero (z : Nat) (l : Str) :
    digitsVal (List.replicate z '0' ++ l) = digitsVal l := by
  rw [digitsVal_append]
  have : digitsVal (List.replicate z '0') = 0 := by
    induction z with
    | zero => rfl
    | succ n ih =>
      have : digitsVal (List.replicate (n + 1) '0')
          = digitsVal (List.replicate n '0') := by
        rw [List.replicate_succ]
        have h0 : (10 * 0 + ('0'.toNat - 48)) = 0 := by decide
        simp [digitsVal, List.foldl_cons, h0]
      rw [this, ih]
  rw [this]
  simp

theorem digitsVal_fracStr (f k : Nat) : digitsVal (fracStr f k) = f := by
  rw [fracStr, digitsVal_replicate_zero, digitsVal_natStr]

theorem fracStr_len (f k : Nat) (hf : f < 10 ^ k) (hk : 1 ≤ k) :
    (fracStr f k).length = k := by
  simp only [fracStr, List.length_append, List.length_replicate]
  have := natStr_len_le f k hf hk
  omega

theorem fracStr_chars (f k : Nat) :
    ∀ c ∈ fracStr f k, ∃ d, d < 10 ∧ c = digitChar10 d := by
  intro c hc
  simp only [fracStr, List.mem_append] at hc
  rcases hc with hc | hc
  · rw [List.mem_replicate] at hc
    exact ⟨0, by omega, by rw [hc.2]; rfl⟩
  · exact natStr_chars f c hc

theorem fracStr_all_digits (f k : Nat) : (fracStr f k).all isDigitCh = true := by
  rw [List.all_eq_true]
  intro c hc
  obtain ⟨d, hd, hdc⟩ := fracStr_chars f k c hc
  rw [hdc]
  exact (digitChar10_facts d hd).1

/-- Characters that can occur in a rendered number. -/
def NumChar (c : Char) : Prop :=
  (∃ d, d < 10 ∧ c = digitChar10 d) ∨ c = '-' ∨ c = '.'

theorem numChar_props (c : Char) (h : NumChar c) :
    isPySpace c = false ∧ (c ≠ 'e' ∧ c ≠ 'E') ∧ c ≠ ':' ∧
    lowerChar c = c ∧ c ≠ 'n' := by
  rcases h with ⟨d, hd, hc⟩ | hc | hc
  · subst hc
    obtain ⟨-, h2, h3, -⟩ := digitChar10_facts d hd
    obtain ⟨hne1, -, -, -, hne5, hne6, -, hne8⟩ := digitChar10_ne d hd
    exact ⟨h2, ⟨hne5, hne6⟩, hne1, h3, hne8⟩
  · subst hc; exact ⟨by decide, ⟨by decide, by decide⟩, by decide, by decide, by decide⟩
  · subst hc; exact ⟨by decide, ⟨by decide, by decide⟩, by decide, by decide, by decide⟩

theorem intStr_chars (z : Int) : ∀ c ∈ intStr z, NumChar c := by
  intro c hc
  by_cases hz : z < 0
  · simp only [intStr, hz, if_true, List.mem_cons] at hc
    rcases hc with hc | hc
    · exact Or.inr (Or.inl hc)
    · exact Or.inl (natStr_chars z.natAbs c hc)
  · simp only [intStr, hz, if_false] at hc
    exact Or.inl (natStr_chars z.natAbs c hc)

theorem decRender_chars (q : Dec) : ∀ c ∈ decRender q, NumChar c := by
  intro c hc
  by_cases hs : q.scale = 0
  · simp only [decRender, hs, if_true] at hc
    exact intStr_chars q.num c hc
  · simp only [decRender, hs, if_false, List.mem_append, List.mem_cons] at hc
    rcases hc with (hc | hc) | hc | hc
    · by_cases hz : q.num < 0
      · simp [hz] at hc
        exact Or.inr (Or.inl hc)
      · simp [hz] at hc
    · exact Or.inl (natStr_chars _ c hc)
    · exact Or.inr (Or.inr hc)
    · exact Or.inl (fracStr_chars _ _ c hc)

theorem takeWhile_all (p : Char → Bool) (l : Str)
    (h : ∀ c ∈ l, p c = true) : l.takeWhile p = l :=
  List.takeWhile_eq_self_iff.mpr h

theorem takeWhile_append_stop (p : Char → Bool) (l1 : Str) (c0 : Char) (l2 : Str)
    (h1 : ∀ c ∈ l1, p c = true) (h2 : p c0 = false) :
    (l1 ++ c0 :: l2).takeWhile p = l1 := by
  induction l1 with
  | nil => simp [List.takeWhile_cons, h2]
  | cons a t ih =>
    have ha : p a = true := h1 a (by simp)
    simp only [List.cons_append, List.takeWhile_cons, ha, if_true]
    rw [ih (fun c hc => h1 c (by simp [hc]))]

theorem mkDec_zero (neg : Bool) (m : Nat) :
    mkDec neg m 0 = ⟨if neg then -(m : Int) else (m : Int), 0⟩ := by
  simp [mkDec]

theorem decCanon_keep (z : Int) (s : Nat) (hs : s ≠ 0) (hz : ¬ z % 10 = 0) :
    decCanon z s = ⟨z, s⟩ := by
  cases s with
  | zero => exact absurd rfl hs
  | succ n =>
    have : (z % 10 == 0) = false := by
      simp [hz]
    simp [decCanon, this]

theorem decCanon_canonical (s : Nat) : ∀ z : Int,
    (decCanon z s).scale = 0 ∨ ¬ (decCanon z s).num % 10 = 0 := by
  induction s with
  | zero => intro z; exact Or.inl rfl
  | succ n ih =>
    intro z
    by_cases hz : z % 10 = 0
    · have : (z % 10 == 0) = true := by simp [hz]
      simp only [decCanon, this, if_true]
      exact ih (z / 10)
    · rw [decCanon_keep z (n + 1) (by omega) hz]
      exact Or.inr hz

theorem mkDec_canonical (neg : Bool) (m : Nat) (k : Int) :
    (mkDec neg m k).scale = 0 ∨ ¬ (mkDec neg m k).num % 10 = 0 := by
  by_cases hk : 0 ≤ k
  · simp [mkDec, hk]
  · simp only [mkDec, hk, if_false]
    exact decCanon_canonical _ _

theorem digit_str_numChar (l : Str)
    (hdig : ∀ c ∈ l, ∃ d, d < 10 ∧ c = digitChar10 d) : ∀ c ∈ l, NumChar c :=
  fun c hc => Or.inl (hdig c hc)

theorem pyFloat?_unsigned_int (l : Str) (hne : l ≠ [])
    (hdig : ∀ c ∈ l, ∃ d, d < 10 ∧ c = digitChar10 d) :
    pyFloat? l = some (mkDec false (digitsVal l) 0) := by
  obtain ⟨c, t, hL⟩ : ∃ c t, l = c :: t := by
    cases l with
    | nil => exact absurd rfl hne
    | cons c t => exact ⟨c, t, rfl⟩
  obtain ⟨d, hd10, hc⟩ := hdig c (by rw [hL]; simp)
  have hstrip : pyStrip l = l :=
    pyStrip_of_all l (fun a ha => (numChar_props a (Or.inl (hdig a ha))).1)
  have hhead : l.head? = some c := by rw [hL]; rfl
  have hnm : (some c == some '-') = false := by
    have : c ≠ '-' := by rw [hc]; exact (digitChar10_ne d hd10).2.2.1
    simpa using this
  have hnp : (some c == some '+') = false := by
    have : c ≠ '+' := by rw [hc]; exact (digitChar10_ne d hd10).2.2.2.1
    simpa using this
  have hmant : l.takeWhile (fun c => !decide (c = 'e') && !decide (c = 'E')) = l := by
    apply takeWhile_all
    intro a ha
    obtain ⟨da, hda, hca⟩ := hdig a ha
    have h5 := (digitChar10_ne da hda).2.2.2.2.1
    have h6 := (digitChar10_ne da hda).2.2.2.2.2.1
    rw [hca]
    simp [h5, h6]
  have hip : l.takeWhile (fun c => !decide (c = '.')) = l := by
    apply takeWhile_all
    intro a ha
    obtain ⟨da, hda, hca⟩ := hdig a ha
    have h2 := (digitChar10_ne da hda).2.1
    rw [hca]
    simp [h2]
  have hparse : parseNatDigits l = some (digitsVal l) := by
    rw [parseNatDigits, if_pos]
    rw [Bool.and_eq_true]
    constructor
    · simpa using hne
    · rw [List.all_eq_true]
      intro a ha
      obtain ⟨da, hda, hca⟩ := hdig a ha
      rw [hca]
      exact (digitChar10_facts da hda).1
  have hcm : c ≠ '-' := by rw [hc]; exact (digitChar10_ne d hd10).2.2.1
  have hcp : c ≠ '+' := by rw [hc]; exact (digitChar10_ne d hd10).2.2.2.1
  have hb : (c == '-') = false := by simpa using hcm
  simp only [pyFloat?]
  rw [hstrip]
  simp [hhead, hcm, hcp, hmant, hip, hparse, hb]

theorem pyFloat?_neg_int (l : Str) (hne : l ≠ [])
    (hdig : ∀ c ∈ l, ∃ d, d < 10 ∧ c = digitChar10 d) :
    pyFloat? ('-' :: l) = some (mkDec true (digitsVal l) 0) := by
  have hstrip : pyStrip ('-' :: l) = '-' :: l := by
    apply pyStrip_of_all
    intro a ha
    rcases List.mem_cons.mp ha with ha | ha
    · subst ha; decide
    · exact (numChar_props a (Or.inl (hdig a ha))).1
  have hmant : l.takeWhile (fun c => !decide (c = 'e') && !decide (c = 'E')) = l := by
    apply takeWhile_all
    intro a ha
    obtain ⟨da, hda, hca⟩ := hdig a ha
    have h5 := (digitChar10_ne da hda).2.2.2.2.1
    have h6 := (digitChar10_ne da hda).2.2.2.2.2.1
    rw [hca]
    simp [h5, h6]
  have hip : l.takeWhile (fun c => !decide (c = '.')) = l := by
    apply takeWhile_all
    intro a ha
    obtain ⟨da, hda, hca⟩ := hdig a ha
    have h2 := (digitChar10_ne da hda).2.1
    rw [hca]
    simp [h2]
  have hparse : parseNatDigits l = some (digitsVal l) := by
    rw [parseNatDigits, if_pos]
    rw [Bool.and_eq_true]
    constructor
    · simpa using hne
    · rw [List.all_eq_true]
      intro a ha
      obtain ⟨da, hda, hca⟩ := hdig a ha
      rw [hca]
      exact (digitChar10_facts da hda).1
  simp only [pyFloat?]
  rw [hstrip]
  simp [hmant, hip, hparse]

theorem pyFloat?_unsigned_frac (l1 l2 : Str) (h1 : l1 ≠ [])
    (hd1 : ∀ c ∈ l1, ∃ d, d < 10 ∧ c = digitChar10 d)
    (hd2 : ∀ c ∈ l2, ∃ d, d < 10 ∧ c = digitChar10 d) :
    pyFloat? (l1 ++ '.' :: l2)
      = some (mkDec false (digitsVal (l1 ++ l2)) (0 - l2.length)) := by
  obtain ⟨c, t, hL⟩ : ∃ c t, l1 = c :: t := by
    cases l1 with
    | nil => exact absurd rfl h1
    | cons c t => exact ⟨c, t, rfl⟩
  obtain ⟨d, hd10, hc⟩ := hd1 c (by rw [hL]; simp)
  have hdigall : ∀ c ∈ l1 ++ '.' :: l2, NumChar c := by
    intro a ha
    rcases List.mem_append.mp ha with ha | ha
    · exact Or.inl (hd1 a ha)
    · rcases List.mem_cons.mp ha with ha | ha
      · exact Or.inr (Or.inr ha)
      · exact Or.inl (hd2 a ha)
  have hstrip : pyStrip (l1 ++ '.' :: l2) = l1 ++ '.' :: l2 :=
    pyStrip_of_all _ (fun a ha => (numChar_props a (hdigall a ha)).1)
  have hhead : (l1 ++ '.' :: l2).head? = some c := by
    rw [hL]; rfl
  have hcm : c ≠ '-' := by rw [hc]; exact (digitChar10_ne d hd10).2.2.1
  have hcp : c ≠ '+' := by rw [hc]; exact (digitChar10_ne d hd10).2.2.2.1
  have hb : (c == '-') = false := by simpa using hcm
  have hmant : (l1 ++ '.' :: l2).takeWhile
      (fun c => !decide (c = 'e') && !decide (c = 'E')) = l1 ++ '.' :: l2 := by
    apply takeWhile_all
    intro a ha
    have h5 := (numChar_props a (hdigall a ha)).2.1.1
    have h6 := (numChar_props a (hdigall a ha)).2.1.2
    simp [h5, h6]
  have hip : (l1 ++ '.' :: l2).takeWhile (fun c => !decide (c = '.')) = l1 := by
    apply takeWhile_append_stop
    · intro a ha
      obtain ⟨da, hda, hca⟩ := hd1 a ha
      have h2 := (digitChar10_ne da hda).2.1
      rw [hca]
      simp [h2]
    · simp
  have hdrop : (l1 ++ '.' :: l2).drop l1.length = '.' :: l2 := List.drop_left _ _
  have hall1 : l1.all isDigitCh = true := by
    rw [List.all_eq_true]
    intro a ha
    obtain ⟨da, hda, hca⟩ := hd1 a ha
    rw [hca]
    exact (digitChar10_facts da hda).1
  have hall2 : l2.all isDigitCh = true := by
    rw [List.all_eq_true]
    intro a ha
    obtain ⟨da, hda, hca⟩ := hd2 a ha
    rw [hca]
    exact (digitChar10_facts da hda).1
  simp only [pyFloat?]
  rw [hstrip]
  simp [hhead, hcm, hcp, hb, hmant, hip, hdrop, hall1, hall2, h1]

theorem pyFloat?_neg_frac (l1 l2 : Str) (h1 : l1 ≠ [])
    (hd1 : ∀ c ∈ l1, ∃ d, d < 10 ∧ c = digitChar10 d)
    (hd2 : ∀ c ∈ l2, ∃ d, d < 10 ∧ c = digitChar10 d) :
    pyFloat? ('-' :: (l1 ++ '.' :: l2))
      = some (mkDec true (digitsVal (l1 ++ l2)) (0 - l2.length)) := by
  have hdigall : ∀ c ∈ l1 ++ '.' :: l2, NumChar c := by
    intro a ha
    rcases List.mem_append.mp ha with ha | ha
    · exact Or.inl (hd1 a ha)
    · rcases List.mem_cons.mp ha with ha | ha
      · exact Or.inr (Or.inr ha)
      · exact Or.inl (hd2 a ha)
  have hstrip : pyStrip ('-' :: (l1 ++ '.' :: l2)) = '-' :: (l1 ++ '.' :: l2) := by
    apply pyStrip_of_all
    intro a ha
    rcases List.mem_cons.mp ha with ha | ha
    · subst ha; decide
    · exact (numChar_props a (hdigall a ha)).1
  have hmant : (l1 ++ '.' :: l2).takeWhile
      (fun c => !decide (c = 'e') && !decide (c = 'E')) = l1 ++ '.' :: l2 := by
    apply takeWhile_all
    intro a ha
    have h5 := (numChar_props a (hdigall a ha)).2.1.1
    have h6 := (numChar_props a (hdigall a ha)).2.1.2
    simp [h5, h6]
  have hip : (l1 ++ '.' :: l2).takeWhile (fun c => !decide (c = '.')) = l1 := by
    apply takeWhile_append_stop
    · intro a ha
      obtain ⟨da, hda, hca⟩ := hd1 a ha
      have h2 := (digitChar10_ne da hda).2.1
      rw [hca]
      simp [h2]
    · simp
  have hdrop : (l1 ++ '.' :: l2).drop l1.length = '.' :: l2 := List.drop_left _ _
  have hall1 : l1.all isDigitCh = true := by
    rw [List.all_eq_true]
    intro a ha
    obtain ⟨da, hda, hca⟩ := hd1 a ha
    rw [hca]
    exact (digitChar10_facts da hda).1
  have hall2 : l2.all isDigitCh = true := by
    rw [List.all_eq_true]
    intro a ha
    obtain ⟨da, hda, hca⟩ := hd2 a ha
    rw [hca]
    exact (digitChar10_facts da hda).1
  simp only [pyFloat?]
  rw [hstrip]
  simp [hmant, hip, hdrop, hall1, hall2, h1]

theorem pyFloat?_intStr (z : Int) : pyFloat? (intStr z) = some ⟨z, 0⟩ := by
  by_cases hneg : z < 0
  · have hrender : intStr z = '-' :: natStr z.natAbs := by
      simp [intStr, hneg]
    rw [hrender,
      pyFloat?_neg_int (natStr z.natAbs) (natStr_ne_nil _) (natStr_chars _)]
    rw [digitsVal_natStr, mkDec_zero]
    show some (⟨-(z.natAbs : Int), 0⟩ : Dec) = some ⟨z, 0⟩
    rw [show -(z.natAbs : Int) = z by omega]
  · have hrender : intStr z = natStr z.natAbs := by
      simp [intStr, hneg]
    rw [hrender,
      pyFloat?_unsigned_int (natStr z.natAbs) (natStr_ne_nil _) (natStr_chars _)]
    rw [digitsVal_natStr, mkDec_zero]
    show some (⟨(z.natAbs : Int), 0⟩ : Dec) = some ⟨z, 0⟩
    rw [show (z.natAbs : Int) = z by omega]

theorem pyFloat?_decRender (q : Dec) (hs : q.scale ≠ 0) (hz : ¬ q.num % 10 = 0) :
    pyFloat? (decRender q) = some q := by
  obtain ⟨z, s⟩ := q
  simp only at hs hz
  have hb : z.natAbs % 10 ^ s < 10 ^ s := Nat.mod_lt _ (by positivity)
  have hs1 : 1 ≤ s := by omega
  have hflen : (fracStr (z.natAbs % 10 ^ s) s).length = s :=
    fracStr_len _ s hb hs1
  have hval : digitsVal (natStr (z.natAbs / 10 ^ s) ++ fracStr (z.natAbs % 10 ^ s) s)
      = z.natAbs := by
    rw [digitsVal_append, digitsVal_natStr, digitsVal_fracStr, hflen]
    have h := Nat.div_add_mod z.natAbs (10 ^ s)
    rw [Nat.mul_comm]
    omega
  have hexp : ∀ w : Nat, ¬ (0 : Int) ≤ 0 - (s : Int) → True := fun _ _ => trivial
  by_cases hneg : z < 0
  · have hrender : decRender ⟨z, s⟩
        = '-' :: (natStr (z.natAbs / 10 ^ s) ++ '.' :: fracStr (z.natAbs % 10 ^ s) s) := by
      simp [decRender, hs, hneg]
    rw [hrender,
      pyFloat?_neg_frac _ _ (natStr_ne_nil _) (natStr_chars _) (fracStr_chars _ _)]
    rw [hval, hflen]
    simp only [mkDec]
    rw [if_neg (by omega : ¬ (0 : Int) ≤ 0 - (s : Int))]
    rw [show (-((0 : Int) - (s : Int))).toNat = s by omega]
    show some (decCanon (-(z.natAbs : Int)) s) = some ⟨z, s⟩
    rw [show -(z.natAbs : Int) = z by omega, decCanon_keep z s hs hz]
  · have hrender : decRender ⟨z, s⟩
        = natStr (z.natAbs / 10 ^ s) ++ '.' :: fracStr (z.natAbs % 10 ^ s) s := by
      simp [decRender, hs, hneg]
    rw [hrender,
      pyFloat?_unsigned_frac _ _ (natStr_ne_nil _) (natStr_chars _) (fracStr_chars _ _)]
    rw [hval, hflen]
    simp only [mkDec]
    rw [if_neg (by omega : ¬ (0 : Int) ≤ 0 - (s : Int))]
    rw [show (-((0 : Int) - (s : Int))).toNat = s by omega]
    show some (decCanon ((z.natAbs : Int)) s) = some ⟨z, s⟩
    rw [show (z.natAbs : Int) = z by omega, decCanon_keep z s hs hz]

theorem pyFloat?_canonical (s : Str) (q : Dec) (h : pyFloat? s = some q) :
    q.scale = 0 ∨ ¬ q.num % 10 = 0 := by
  simp only [pyFloat?] at h
  repeat' split at h
  all_goals
    first
      | (rw [Option.some_inj] at h; rw [← h]; exact mkDec_canonical _ _ _)
      | exact absurd h (by simp)

theorem pyLower_eq_of (l : Str) (h : ∀ c ∈ l, lowerChar c = c) :
    pyLower l = l := by
  simp only [pyLower]
  calc l.map lowerChar = l.map id := List.map_congr_left h
    _ = l := List.map_id l

theorem contains_false_of_all (l : Str) (c : Char)
    (h : ∀ a ∈ l, a ≠ c) : l.contains c = false := by
  rw [not_contains_iff]
  intro hc
  exact h c hc rfl

theorem numstr_not_sentinel (y : Str) (hchars : ∀ c ∈ y, NumChar c) :
    pyLower y ∉ normSentinels := by
  rw [pyLower_eq_of y (fun c hc => (numChar_props c (hchars c hc)).2.2.2.1)]
  intro hy
  have hn : 'n' ∈ y := by
    simp only [normSentinels, List.mem_cons] at hy
    rcases hy with hy | hy | hy | hy | hy
    · rw [hy]; decide
    · rw [hy]; decide
    · rw [hy]; decide
    · rw [hy]; decide
    · simp at hy
  exact (numChar_props 'n' (hchars 'n' hn)).2.2.2.2 rfl

theorem numstr_no_colon (y : Str) (hchars : ∀ c ∈ y, NumChar c) :
    y.contains ':' = false := by
  apply contains_false_of_all
  intro a ha hac
  subst hac
  exact (numChar_props ':' (hchars ':' ha)).2.2.1 rfl

theorem numstr_strip (y : Str) (hchars : ∀ c ∈ y, NumChar c) :
    pyStrip y = y :=
  pyStrip_of_all y (fun c hc => (numChar_props c (hchars c hc)).1)

theorem intStr_ne_nil (z : Int) : intStr z ≠ [] := by
  by_cases hz : z < 0
  · simp [intStr, hz]
  · simp only [intStr, hz, if_false]
    exact natStr_ne_nil _

theorem decRender_ne_nil (q : Dec) : decRender q ≠ [] := by
  by_cases hs : q.scale = 0
  · simp only [decRender, hs, if_true]
    exact intStr_ne_nil _
  · simp only [decRender, hs, if_false]
    intro h
    rw [List.append_assoc] at h
    rcases List.append_eq_nil.mp h with ⟨-, h2⟩
    exact natStr_ne_nil _ (List.append_eq_nil.mp h2).1

theorem normalize_value_of_textual (v : Str) (hv : pyStrip v = v)
    (hs : pyLower v ∉ normSentinels) (hc : v.contains ':' = false)
    (hp : pyFloat? v = none) : normalize_value v = v := by
  by_cases hnil : v = []
  · rw [hnil]; rfl
  · simp only [normalize_value, hnil, if_false, hv]
    rw [if_neg hs, hc]
    simp only [Bool.false_and, Bool.false_eq_true, if_false, hp]

theorem normalize_value_intStr (z : Int) :
    normalize_value (intStr z) = intStr z := by
  have hchars := intStr_chars z
  have hnil := intStr_ne_nil z
  simp only [normalize_value, hnil, if_false, numstr_strip _ hchars]
  rw [if_neg (numstr_not_sentinel _ hchars), numstr_no_colon _ hchars]
  simp only [Bool.false_and, Bool.false_eq_true, if_false, pyFloat?_intStr z]
  simp

theorem normalize_value_decRender (q : Dec) (hsq : q.scale ≠ 0)
    (hz : ¬ q.num % 10 = 0) :
    normalize_value (decRender q) = decRender q := by
  have hchars := decRender_chars q
  have hnil := decRender_ne_nil q
  simp only [normalize_value, hnil, if_false, numstr_strip _ hchars]
  rw [if_neg (numstr_not_sentinel _ hchars), numstr_no_colon _ hchars]
  simp only [Bool.false_and, Bool.false_eq_true, if_false, pyFloat?_decRender q hsq hz]
  simp [hsq]

theorem normalize_value_idem_no_colon (x : Str) (h : x.contains ':' = false) :
    normalize_value (normalize_value x) = normalize_value x := by
  by_cases hnil : x = []
  · rw [hnil]; rfl
  · by_cases hsent : pyLower (pyStrip x) ∈ normSentinels
    · have hx : normalize_value x = [] := by
        simp only [normalize_value, hnil, if_false]
        rw [if_pos hsent]
      rw [hx]; rfl
    · have hc0 : (pyStrip x).contains ':' = false := contains_mono_pyStrip x ':' h
      have hx : normalize_value x =
          (match pyFloat? (pyStrip x) with
           | some q => if q.scale = 0 then intStr q.num else decRender q
           | none => pyStrip x) := by
        simp only [normalize_value, hnil, if_false]
        rw [if_neg hsent, hc0]
        simp only [Bool.false_and, Bool.false_eq_true, if_false]
      cases hp : pyFloat? (pyStrip x) with
      | some q =>
        rw [hx, hp]
        show normalize_value (if q.scale = 0 then intStr q.num else decRender q)
          = (if q.scale = 0 then intStr q.num else decRender q)
        by_cases hq : q.scale = 0
        · rw [if_pos hq]
          exact normalize_value_intStr q.num
        · rw [if_neg hq]
          have hz : ¬ q.num % 10 = 0 := by
            rcases pyFloat?_canonical (pyStrip x) q hp with hcanon | hcanon
            · exact absurd hcanon hq
            · exact hcanon
          exact normalize_value_decRender q hq hz
      | none =>
        rw [hx, hp]
        show normalize_value (pyStrip x) = pyStrip x
        exact normalize_value_of_textual (pyStrip x) (pyStrip_idem x) hsent hc0 hp

/-- Identity validity of a candidate: the rejection test at line 488
(non-empty normalized date and time). -/
def identValid (isAlert : Bool) (r : Rec) : Bool :=
  !((normDate isAlert r).isEmpty || (normTime isAlert r).isEmpty)

/-- Is the key of candidate `r` absent from the prefetched index? -/
def isNew (isAlert : Bool) (existing : List (Str × Str)) (r : Rec) : Bool :=
  !(existing.lookup (identOf isAlert r)).isSome

theorem syncLoop_spec (isAlert : Bool) (existing : List (Str × Str))
    (createOk : Rec → Bool) (records : List Rec) :
    (syncLoop isAlert existing createOk records).created
      = records.countP (fun r =>
          identValid isAlert r && isNew isAlert existing r && createOk r) ∧
    (syncLoop isAlert existing createOk records).skipped
      = records.countP (fun r =>
          identValid isAlert r && !isNew isAlert existing r) ∧
    (syncLoop isAlert existing createOk records).failed
      = records.countP (fun r =>
          !identValid isAlert r
            || (identValid isAlert r && isNew isAlert existing r && !createOk r)) ∧
    (syncLoop isAlert existing createOk records).fetched = true ∧
    (syncLoop isAlert existing createOk records).attempts
      = records.filter (fun r => identValid isAlert r && isNew isAlert existing r) ∧
    (syncLoop isAlert existing createOk records).posted
      = records.filter (fun r =>
          identValid isAlert r && isNew isAlert existing r && createOk r) := by
  induction records with
  | nil => exact ⟨rfl, rfl, rfl, rfl, rfl, rfl⟩
  | cons r rest ih =>
    obtain ⟨ih1, ih2, ih3, ih4, ih5, ih6⟩ := ih
    by_cases h1 : ((normDate isAlert r).isEmpty || (normTime isAlert r).isEmpty) = true
    · have hv : identValid isAlert r = false := by
        simp only [identValid, h1]
        rfl
      refine ⟨?_, ?_, ?_, ?_, ?_, ?_⟩ <;>
        simp [syncLoop, h1, hv, List.countP_cons, List.filter_cons, ih1, ih2, ih3,
          ih4, ih5, ih6]
    · have hv : identValid isAlert r = true := by
        simp only [identValid]
        simp only [Bool.not_eq_true] at h1
        simp [h1]
      by_cases h2 : (existing.lookup (identOf isAlert r)).isSome = true
      · have hn : isNew isAlert existing r = false := by
          simp [isNew, h2]
        refine ⟨?_, ?_, ?_, ?_, ?_, ?_⟩ <;>
          simp [syncLoop, h1, h2, hv, hn, List.countP_cons, List.filter_cons,
            ih1, ih2, ih3, ih4, ih5, ih6]
      · have hn : isNew isAlert existing r = true := by
          simp only [Bool.not_eq_true] at h2
          simp [isNew, h2]
        by_cases h3 : createOk r = true
        · refine ⟨?_, ?_, ?_, ?_, ?_, ?_⟩ <;>
            simp [syncLoop, h1, h2, h3, hv, hn, List.countP_cons, List.filter_cons,
              ih1, ih2, ih3, ih4, ih5, ih6]
        · refine ⟨?_, ?_, ?_, ?_, ?_, ?_⟩ <;>
            simp [syncLoop, h1, h2, h3, hv, hn, List.countP_cons, List.filter_cons,
              ih1, ih2, ih3, ih4, ih5, ih6]

theorem countP_outcomes (isAlert : Bool) (existing : List (Str × Str))
    (createOk : Rec → Bool) (records : List Rec) :
    records.countP (fun r =>
        identValid isAlert r && isNew isAlert existing r && createOk r)
      + records.countP (fun r =>
          identValid isAlert r && !isNew isAlert existing r)
      + records.countP (fun r =>
          !identValid isAlert r
            || (identValid isAlert r && isNew isAlert existing r && !createOk r))
      = records.length := by
  induction records with
  | nil => rfl
  | cons r rest ih =>
    cases hv : identValid isAlert r <;> cases hn : isNew isAlert existing r <;>
      cases ho : createOk r <;>
      simp [List.countP_cons, hv, hn, ho] <;> omega

theorem lookup_isSome_of_mem_keys (l : List (Str × Str)) (k : Str)
    (h : k ∈ l.map Prod.fst) : (l.lookup k).isSome = true := by
  induction l with
  | nil => simp at h
  | cons p rest ih =>
    simp only [List.map_cons, List.mem_cons] at h
    rcases h with h | h
    · cases p with
      | mk k1 v1 =>
        simp only at h
        subst h
        simp [List.lookup_cons]
    · cases p with
      | mk k1 v1 =>
        by_cases he : k == k1
        · simp [List.lookup_cons, he]
        · simp only [List.lookup_cons]
          simp only [Bool.not_eq_true] at he
          rw [he]
          exact ih h

theorem pipeJoin_cons2_ne_nil (a b : Str) (rest : List Str) :
    pipeJoin (a :: b :: rest) ≠ [] := by
  have : pipeJoin (a :: b :: rest) = a ++ '|' :: pipeJoin (b :: rest) := by
    rfl
  rw [this]
  intro h
  exact absurd (List.append_eq_nil.mp h).2 (by simp)

theorem identFetchOf_ne_nil (isAlert : Bool) (r : Rec) :
    identFetchOf isAlert r ≠ [] := by
  cases isAlert
  · exact pipeJoin_cons2_ne_nil _ _ _
  · exact pipeJoin_cons2_ne_nil _ _ _

theorem get_existing_ok (isAlert : Bool) (rs : List RRec) :
    get_existing_records isAlert (Except.ok rs)
      = rs.map (fun rr => (identFetchOf isAlert rr.fields, rr.sysId)) := by
  simp only [get_existing_records]
  induction rs with
  | nil => rfl
  | cons rr rest ih =>
    rw [List.filterMap_cons, List.map_cons]
    rw [if_neg (identFetchOf_ne_nil isAlert rr.fields)]
    rw [ih]

theorem getD_hasKey (r : Rec) (k d1 d2 : Str) (h : hasKey r k = true) :
    getD r k d1 = getD r k d2 := by
  simp only [hasKey] at h
  simp only [getD]
  cases hl : r.lookup k with
  | none => rw [hl] at h; simp at h
  | some v => simp [hl]

theorem alertIdent_eq_fetch (r : Rec) : alertIdent r = alertIdentFetch r := rfl

theorem sensorIdent_eq_fetch (r : Rec) (h : hasKey r (S "is_active") = true) :
    sensorIdent r = sensorIdentFetch r := by
  simp only [sensorIdent, sensorIdentFetch]
  rw [getD_hasKey r (S "is_active") (S "false") [] h]

theorem identOf_eq_fetch (isAlert : Bool) (r : Rec)
    (h : isAlert = true ∨ hasKey r (S "is_active") = true) :
    identOf isAlert r = identFetchOf isAlert r := by
  cases isAlert
  · rcases h with h | h
    · exact absurd h (by simp)
    · exact sensorIdent_eq_fetch r h
  · exact alertIdent_eq_fetch r

theorem sync_records_eq_loop (isAlert : Bool) (fetch : Except Unit (List RRec))
    (createOk : Rec → Bool) (records : List Rec) (h : records ≠ []) :
    sync_records isAlert fetch createOk records
      = syncLoop isAlert (get_existing_records isAlert fetch) createOk records := by
  simp [sync_records, h]

theorem take_one_filter {α : Type} (p : α → Bool) (l : List α) :
    (l.filter p).take 1 = (l.find? p).toList := by
  induction l with
  | nil => rfl
  | cons a t ih =>
    by_cases h : p a
    · simp [List.filter_cons, List.find?_cons, h]
    · simp only [List.filter_cons, List.find?_cons] at *
      simp only [h, if_false]
      rw [if_neg (by simp [h])] at *
      exact ih

/-- C6: the process exit decision (lines 586-598) returns 0 exactly when
not every attempted record failed: partial failure (some created, some
failed) exits 0, and only failed-with-nothing-created exits 1. -/
theorem exit_code_contract :
    (∀ results : List (Nat × Nat × Nat),
      (main_exit results = 0 ↔
        totalFailed results = 0 ∨ 0 < totalCreated results)) ∧
    main_exit [(3, 0, 2)] = 0 ∧ main_exit [(0, 0, 5)] = 1 := by
  refine ⟨?_, by decide, by decide⟩
  intro results
  constructor
  · intro h0
    by_contra hc
    push_neg at hc
    obtain ⟨h1, h2⟩ := hc
    have hb : (0 < totalFailed results && totalCreated results == 0) = true := by
      simp only [Bool.and_eq_true, decide_eq_true_eq, beq_iff_eq]
      omega
    have : main_exit results = 1 := by
      simp only [main_exit]
      rw [if_pos hb]
    omega
  · intro hr
    simp only [main_exit]
    rw [if_neg]
    simp only [Bool.and_eq_true, decide_eq_true_eq, beq_iff_eq, not_and]
    intro h1
    omega

/-- C9 counterexample: a lookup table whose only entry is named exactly
"mmwave-door" and a sheet named "mmwave-door": the exact-name match
exists (and would give "SENSOR 9"), but the resolver returns the
mmwave-branch default "SENSOR 5", because the substring special case runs
before the exact match, contrary to the claimed order. -/
theorem sensor_resolution_cex :
    get_sensor_type_id_for_sheet [(S "mmwave-door", S "SENSOR 9")]
        (S "mmwave-door") = S "SENSOR 5" ∧
    List.lookup (pyStrip (S "mmwave-door")) [(S "mmwave-door", S "SENSOR 9")]
      = some (S "SENSOR 9") ∧
    S "SENSOR 5" ≠ S "SENSOR 9" :=
  ⟨by decide, by decide, by decide⟩

/-- C9 amended: the resolver tries the mmwave substring rule first
(returning the id of the entry whose name lowercases to "mmwave", or
"SENSOR 5" when the table has none), and only otherwise exact name, then
case-insensitive name, then the default "SENSOR 1". -/
theorem sensor_resolution_amended :
    ∀ (sensorTypes : List (Str × Str)) (sheetName : Str),
      get_sensor_type_id_for_sheet sensorTypes sheetName
        = resolveSheetAmended sensorTypes sheetName := by
  intro T sh
  simp only [get_sensor_type_id_for_sheet, resolveSheetAmended]
  by_cases h : hasSub (S "mmwave") (pyLower (pyStrip sh)) = true
  · simp only [h, if_true]
    cases T.find? (fun p => pyLower p.1 == S "mmwave") <;> rfl
  · simp only [Bool.not_eq_true] at h
    simp only [h, Bool.false_eq_true, if_false]
    cases T.lookup (pyStrip sh) <;>
      cases T.find? (fun p => pyLower p.1 == pyLower (pyStrip sh)) <;> rfl

/-- C3 counterexample: one row at 13:00 on one day. The at-or-after rule
of the spec selects it for the 12:00 target, but the filter selects
nothing, because the code matches the hour component exactly (hour = 12
or hour = 20), not at-or-after. -/
theorem window_sampler_cex :
    filter_sensor_data_by_hour [⟨some (0, 13, 0), 0⟩] = ([] : List SRow) ∧
    specWindowSample [(12, 0), (20, 0)] [⟨some (0, 13, 0), 0⟩]
      = [⟨some (0, 13, 0), 0⟩] :=
  ⟨by decide, by decide⟩

/-- C3 amended: the sampler ignores calendar dates and the at-or-after
rule: over all parseable rows, in sheet order, it selects the first row
whose hour component equals 12 and the first whose hour equals 20 (so a
row at 12:03 matches but one at 13:00 does not), returning them in that
order; the 11:55/12:03/19:58/20:10 example still yields
[12:03, 20:10]. -/
theorem window_sampler_amended :
    (∀ rows : List SRow,
      filter_sensor_data_by_hour rows
        = ((rows.filter (fun r => r.ts.isSome)).find?
            (fun r => hourOf r == 12)).toList
          ++ ((rows.filter (fun r => r.ts.isSome)).find?
              (fun r => hourOf r == 20)).toList) ∧
    filter_sensor_data_by_hour
        [⟨some (0, 11, 55), 1⟩, ⟨some (0, 12, 3), 2⟩,
         ⟨some (0, 19, 58), 3⟩, ⟨some (0, 20, 10), 4⟩]
      = [⟨some (0, 12, 3), 2⟩, ⟨some (0, 20, 10), 4⟩] := by
  refine ⟨?_, by decide⟩
  intro rows
  simp only [filter_sensor_data_by_hour]
  rw [List.filter_filter, List.filter_filter, take_one_filter, take_one_filter,
    List.find?_filter, List.find?_filter]
  have e1 : (fun (a : SRow) => hourOf a == 12 && a.ts.isSome)
      = (fun a => decide (a.ts.isSome = true ∧ (hourOf a == 12) = true)) := by
    funext a
    by_cases h12 : hourOf a = 12 <;> simp [h12, Bool.and_comm]
  have e2 : (fun (a : SRow) => hourOf a == 20 && a.ts.isSome)
      = (fun a => decide (a.ts.isSome = true ∧ (hourOf a == 20) = true)) := by
    funext a
    by_cases h20 : hourOf a = 20 <;> simp [h20, Bool.and_comm]
  rw [e1, e2]

/-- C10: outcome-count conservation. Every candidate lands in exactly one
of the three counters, so created + skipped + failed equals the number of
candidates; and an empty candidate list returns (0, 0, 0) without even
fetching the remote index (the early return at lines 456-458). -/
theorem outcome_conservation :
    ∀ (isAlert : Bool) (fetch : Except Unit (List RRec))
      (createOk : Rec → Bool) (records : List Rec),
      (sync_records isAlert fetch createOk records).created
        + (sync_records isAlert fetch createOk records).skipped
        + (sync_records isAlert fetch createOk records).failed
        = records.length ∧
      (records = [] →
        sync_records isAlert fetch createOk records = ⟨0, 0, 0, false, [], []⟩) ∧
      (records ≠ [] →
        (sync_records isAlert fetch createOk records).fetched = true) := by
  intro isAlert fetch ok records
  by_cases h : records = []
  · subst h
    exact ⟨rfl, fun _ => rfl, fun hne => absurd rfl hne⟩
  · rw [sync_records_eq_loop _ _ _ _ h]
    obtain ⟨h1, h2, h3, h4, -, -⟩ :=
      syncLoop_spec isAlert (get_existing_records isAlert fetch) ok records
    refine ⟨?_, fun he => absurd he h, fun _ => h4⟩
    rw [h1, h2, h3]
    exact countP_outcomes isAlert (get_existing_records isAlert fetch) ok records

theorem countP_fail_split (isAlert : Bool) (existing : List (Str × Str))
    (createOk : Rec → Bool) (records : List Rec) :
    records.countP (fun r =>
        !identValid isAlert r
          || (identValid isAlert r && isNew isAlert existing r && !createOk r))
      = records.countP (fun r => !identValid isAlert r)
        + records.countP (fun r =>
            identValid isAlert r && isNew isAlert existing r && !createOk r) := by
  induction records with
  | nil => rfl
  | cons r rest ih =>
    cases hv : identValid isAlert r <;> cases hn : isNew isAlert existing r <;>
      cases ho : createOk r <;>
      simp [List.countP_cons, hv, hn, ho, ih] <;> omega

theorem countP_valid_split (isAlert : Bool) (existing : List (Str × Str))
    (records : List Rec) :
    records.countP (fun r =>
        identValid isAlert r && !isNew isAlert existing r)
      + records.countP (fun r =>
          identValid isAlert r && isNew isAlert existing r)
      = records.countP (fun r => identValid isAlert r) := by
  induction records with
  | nil => rfl
  | cons r rest ih =>
    cases hv : identValid isAlert r <;> cases hn : isNew isAlert existing r <;>
      simp [List.countP_cons, hv, hn, ih] <;> omega

/-- C8: identity rejection. Every record a create is attempted for has
non-empty normalized date and time; the failed counter is exactly the
identity-rejected records plus the attempted-but-failed creates (so a
record with empty date or time is counted failed and never reaches remote
I/O); and the identity-valid records are exactly the skipped plus the
attempted ones (they proceed to lookup and create-or-skip). -/
theorem identity_rejection :
    ∀ (isAlert : Bool) (fetch : Except Unit (List RRec))
      (createOk : Rec → Bool) (records : List Rec),
      (∀ r ∈ (sync_records isAlert fetch createOk records).attempts,
        identValid isAlert r = true) ∧
      (sync_records isAlert fetch createOk records).failed
        = records.countP (fun r => !identValid isAlert r)
          + (sync_records isAlert fetch createOk records).attempts.countP
              (fun r => !createOk r) ∧
      (sync_records isAlert fetch createOk records).skipped
        + (sync_records isAlert fetch createOk records).attempts.length
        = records.countP (fun r => identValid isAlert r) := by
  intro isAlert fetch ok records
  by_cases h : records = []
  · subst h
    refine ⟨fun r hr => absurd hr (by simp [sync_records]), rfl, rfl⟩
  · rw [sync_records_eq_loop _ _ _ _ h]
    obtain ⟨h1, h2, h3, h4, h5, h6⟩ :=
      syncLoop_spec isAlert (get_existing_records isAlert fetch) ok records
    refine ⟨?_, ?_, ?_⟩
    · intro r hr
      rw [h5] at hr
      have := (List.mem_filter.mp hr).2
      exact (Bool.and_eq_true _ _ |>.mp this).1
    · rw [h3, h5, List.countP_filter, countP_fail_split]
      congr 1
      apply List.countP_congr
      intro r hr
      cases hv : identValid isAlert r <;>
        cases hn : isNew isAlert (get_existing_records isAlert fetch) r <;>
        cases ho : ok r <;> simp [hv, hn, ho]
    · rw [h2, h5, ← List.countP_eq_length_filter,
        countP_valid_split isAlert (get_existing_records isAlert fetch) records]

/-- C5: transport-failure degradation. When the fetch of existing records
raises, `get_existing_records` returns the empty index instead of
propagating; the reconciler then runs to completion over the empty index:
nothing is skipped, a create is attempted for every (identity-valid)
candidate, and every candidate ends up counted created or failed. -/
theorem fetch_failure_degrades :
    ∀ (isAlert : Bool) (createOk : Rec → Bool) (records : List Rec),
      (∀ r ∈ records, identValid isAlert r = true) →
      get_existing_records isAlert (Except.error ()) = [] ∧
      (sync_records isAlert (Except.error ()) createOk records).skipped = 0 ∧
      (sync_records isAlert (Except.error ()) createOk records).attempts
        = records ∧
      (sync_records isAlert (Except.error ()) createOk records).created
        + (sync_records isAlert (Except.error ()) createOk records).failed
        = records.length := by
  intro isAlert ok records hvalid
  by_cases h : records = []
  · subst h
    exact ⟨rfl, rfl, rfl, rfl⟩
  · refine ⟨rfl, ?_, ?_, ?_⟩ <;> rw [sync_records_eq_loop _ _ _ _ h]
    all_goals obtain ⟨h1, h2, h3, h4, h5, h6⟩ :=
      syncLoop_spec isAlert (get_existing_records isAlert (Except.error ())) ok records
    · rw [h2]
      rw [List.countP_eq_zero]
      intro r hr
      simp only [Bool.and_eq_true]
      intro hx
      have : isNew isAlert (get_existing_records isAlert (Except.error ())) r
          = true := by
        simp [isNew, get_existing_records]
      rw [this] at hx
      simp at hx
    · rw [h5]
      apply List.filter_eq_self.mpr
      intro r hr
      have hn : isNew isAlert (get_existing_records isAlert (Except.error ())) r
          = true := by
        simp [isNew, get_existing_records]
      simp [hvalid r hr, hn]
    · have hsum := countP_outcomes isAlert
        (get_existing_records isAlert (Except.error ())) ok records
      have hskip : records.countP (fun r =>
          identValid isAlert r
            && !isNew isAlert (get_existing_records isAlert (Except.error ())) r)
          = 0 := by
        rw [List.countP_eq_zero]
        intro r hr
        have hn : isNew isAlert (get_existing_records isAlert (Except.error ())) r
            = true := by
          simp [isNew, get_existing_records]
        simp [hn]
      rw [h1, h3]
      omega

theorem hasKey_of_mem (r : Rec) (k v : Str) (h : (k, v) ∈ r) :
    hasKey r k = true := by
  induction r with
  | nil => simp at h
  | cons p rest ih =>
    cases p with
    | mk k1 v1 =>
      by_cases hk : (k == k1) = true
      · simp [hasKey, List.lookup_cons, hk]
      · simp only [List.mem_cons] at h
        rcases h with h | h
        · have hkk : k = k1 := congrArg Prod.fst h
          rw [hkk] at hk
          simp at hk
        · have := ih h
          simp only [hasKey, List.lookup_cons]
          simp only [Bool.not_eq_true] at hk
          rw [hk]
          exact this

theorem mem_of_hasKey (r : Rec) (k : Str) (h : hasKey r k = true) :
    ∃ v, (k, v) ∈ r := by
  induction r with
  | nil => simp [hasKey] at h
  | cons p rest ih =>
    cases p with
    | mk k1 v1 =>
      by_cases hk : (k == k1) = true
      · have : k = k1 := by simpa using hk
        subst this
        exact ⟨v1, by simp⟩
      · simp only [hasKey, List.lookup_cons] at h
        simp only [Bool.not_eq_true] at hk
        rw [hk] at h
        obtain ⟨v, hv⟩ := ih h
        exact ⟨v, by simp [hv]⟩

theorem transform_sensor_has_is_active :
    ∀ (stid : Str) (rows : List Rec) (r : Rec),
      r ∈ transform_sensor_data stid rows → hasKey r (S "is_active") = true := by
  intro stid rows r hr
  simp only [transform_sensor_data] at hr
  obtain ⟨row, hrow, hmap⟩ := List.mem_filterMap.mp hr
  simp only [mapSensorRow] at hmap
  repeat' split at hmap
  all_goals first
    | (rw [Option.some_inj] at hmap
       subst hmap
       apply hasKey_of_mem _ _ (S "false")
       apply List.mem_filter.mpr
       refine ⟨List.mem_append_left _ (by simp), by decide⟩)
    | exact absurd hmap (by simp)

/-- C2: identity-key stability across the create-then-fetch echo. The
alert key built in `sync_records` and the one rebuilt by
`get_existing_records` from a record carrying the very fields that were
posted agree on the nose for every record; the sensor keys agree for
every record carrying an `is_active` field (the two sites use different
defaults for it, lines 409 vs 485), and every candidate
`transform_sensor_data` ever emits carries `is_active`. -/
theorem identity_key_echo_stable :
    (∀ r : Rec, alertIdent r = alertIdentFetch r) ∧
    (∀ r : Rec, hasKey r (S "is_active") = true →
      sensorIdent r = sensorIdentFetch r) ∧
    (∀ (stid : Str) (rows : List Rec) (r : Rec),
      r ∈ transform_sensor_data stid rows →
      sensorIdent r = sensorIdentFetch r) := by
  refine ⟨alertIdent_eq_fetch, sensorIdent_eq_fetch, ?_⟩
  intro stid rows r hr
  exact sensorIdent_eq_fetch r (transform_sensor_has_is_active stid rows r hr)

theorem identity_key_echo_stable_witness :
    sensorIdent [(S "is_active", S "false")]
      = sensorIdentFetch [(S "is_active", S "false")] :=
  identity_key_echo_stable.2.1 [(S "is_active", S "false")] (by decide)

/-- C1: idempotent re-run. Against a stateful mock store in which every
create succeeds and echoes the posted fields, a first run from an empty
store creates the N identity-valid candidates and skips none, and a
second run over the same candidates against the store now holding them
creates none and skips exactly those N. The hypothesis records what the
pipeline guarantees for the sensor table: every candidate it produces
carries an `is_active` field (alert-table runs need nothing). -/
theorem sync_rerun_idempotent :
    ∀ (isAlert : Bool) (records : List Rec),
      (isAlert = true ∨ ∀ r ∈ records, hasKey r (S "is_active") = true) →
      (runOnce isAlert [] records).1.skipped = 0 ∧
      (runOnce isAlert (runOnce isAlert [] records).2 records).1.created = 0 ∧
      (runOnce isAlert (runOnce isAlert [] records).2 records).1.skipped
        = (runOnce isAlert [] records).1.created := by
  intro isAlert records hkey
  by_cases h0 : records = []
  · subst h0
    exact ⟨rfl, rfl, rfl⟩
  · have e1 : get_existing_records isAlert (Except.ok ([] : List RRec)) = [] := rfl
    have hnew1 : ∀ r : Rec, isNew isAlert [] r = true := fun r => rfl
    have hrun1 : (runOnce isAlert [] records).1
        = syncLoop isAlert [] (fun _ => true) records := by
      simp only [runOnce]
      rw [sync_records_eq_loop _ _ _ _ h0, e1]
    obtain ⟨m1c, m1s, m1f, m1e, m1a, m1p⟩ :=
      syncLoop_spec isAlert [] (fun _ => true) records
    have hr1skip : (runOnce isAlert [] records).1.skipped = 0 := by
      rw [hrun1, m1s, List.countP_eq_zero]
      intro r hr
      simp [hnew1 r]
    have hr1created : (runOnce isAlert [] records).1.created
        = records.countP (fun r => identValid isAlert r) := by
      rw [hrun1, m1c]
      apply List.countP_congr
      intro r hr
      simp [hnew1 r]
    have hr1posted : (runOnce isAlert [] records).1.posted
        = records.filter (fun r => identValid isAlert r) := by
      rw [hrun1, m1p]
      apply List.filter_congr
      intro r hr
      simp [hnew1 r]
    have hstore : (runOnce isAlert [] records).2
        = (records.filter (fun r => identValid isAlert r)).map
            (fun r => (⟨[], r⟩ : RRec)) := by
      have : (runOnce isAlert [] records).2
          = ((runOnce isAlert [] records).1.posted).map
              (fun r => (⟨[], r⟩ : RRec)) := by
        simp [runOnce]
      rw [this, hr1posted]
    have e2 : get_existing_records isAlert
          (Except.ok ((runOnce isAlert [] records).2))
        = (records.filter (fun r => identValid isAlert r)).map
            (fun r => (identFetchOf isAlert r, ([] : Str))) := by
      rw [hstore, get_existing_ok, List.map_map]
      rfl
    have hnew2 : ∀ r ∈ records, identValid isAlert r = true →
        isNew isAlert (get_existing_records isAlert
          (Except.ok ((runOnce isAlert [] records).2))) r = false := by
      intro r hr hv
      have hsome : ((get_existing_records isAlert
          (Except.ok ((runOnce isAlert [] records).2))).lookup
            (identOf isAlert r)).isSome = true := by
        apply lookup_isSome_of_mem_keys
        rw [e2, List.map_map]
        have hident : identOf isAlert r = identFetchOf isAlert r := by
          apply identOf_eq_fetch
          rcases hkey with hkey | hkey
          · exact Or.inl hkey
          · exact Or.inr (hkey r hr)
        rw [hident]
        apply List.mem_map.mpr
        exact ⟨r, List.mem_filter.mpr ⟨hr, hv⟩, rfl⟩
      simp [isNew, hsome]
    have hrun2 : (runOnce isAlert (runOnce isAlert [] records).2 records).1
        = syncLoop isAlert (get_existing_records isAlert
            (Except.ok ((runOnce isAlert [] records).2)))
            (fun _ => true) records := by
      simp only [runOnce]
      rw [sync_records_eq_loop _ _ _ _ h0]
    obtain ⟨m2c, m2s, m2f, m2e, m2a, m2p⟩ :=
      syncLoop_spec isAlert (get_existing_records isAlert
        (Except.ok ((runOnce isAlert [] records).2))) (fun _ => true) records
    refine ⟨hr1skip, ?_, ?_⟩
    · rw [hrun2, m2c, List.countP_eq_zero]
      intro r hr
      cases hv : identValid isAlert r with
      | false => simp [hv]
      | true => simp [hv, hnew2 r hr hv]
    · rw [hrun2, m2s, hr1created]
      apply List.countP_congr
      intro r hr
      cases hv : identValid isAlert r with
      | false => simp [hv]
      | true => simp [hv, hnew2 r hr hv]

theorem sync_rerun_idempotent_witness :
    (runOnce true []
      [[(S "alert_date", S "2024-05-01"), (S "alert_time", S "12:00:00")]]).1.skipped
        = 0 ∧
    (runOnce true
      (runOnce true []
        [[(S "alert_date", S "2024-05-01"), (S "alert_time", S "12:00:00")]]).2
      [[(S "alert_date", S "2024-05-01"),
        (S "alert_time", S "12:00:00")]]).1.created = 0 ∧
    (runOnce true
      (runOnce true []
        [[(S "alert_date", S "2024-05-01"), (S "alert_time", S "12:00:00")]]).2
      [[(S "alert_date", S "2024-05-01"),
        (S "alert_time", S "12:00:00")]]).1.skipped
      = (runOnce true []
          [[(S "alert_date", S "2024-05-01"),
            (S "alert_time", S "12:00:00")]]).1.created :=
  sync_rerun_idempotent true
    [[(S "alert_date", S "2024-05-01"), (S "alert_time", S "12:00:00")]]
    (Or.inl rfl)

theorem pair_fst_ne (a b k : Str) (h : a ≠ k) : (a, b).1 ≠ k := h

theorem isDateish_not_sentinel (v : Str) (h : isDateish v = true) :
    v ≠ [] ∧ v ≠ S "nan" ∧ v ≠ S "NaT" := by
  refine ⟨?_, ?_, ?_⟩ <;> intro he <;> rw [he] at h <;> exact absurd h (by decide)

theorem hasKey_dropEmpty_false (L : Rec) (k : Str)
    (h : ∀ p ∈ L, p.1 ≠ k) : hasKey (dropEmptyFields L) k = false := by
  cases hh : hasKey (dropEmptyFields L) k with
  | false => rfl
  | true =>
    obtain ⟨v, hv⟩ := mem_of_hasKey _ _ hh
    have hmem : (k, v) ∈ L := (List.mem_filter.mp hv).1
    exact absurd rfl (h (k, v) hmem)

theorem classifyValue_spec (v : Str) :
    ((classifyValue v).1 ≠ [] →
      isDateish (pyStrip v) = false ∧
      (pyFloat? (cleanValue (pyStrip v))).isSome = true) ∧
    (isDateish (pyStrip v) = true →
      (classifyValue v).1 = [] ∧ (classifyValue v).2 = pyStrip v) ∧
    ¬((classifyValue v).1 ≠ [] ∧ (classifyValue v).2 ≠ []) := by
  simp only [classifyValue]
  by_cases h1 : pyStrip v ∈ [S "nan", S "NaT", S "", S "None"]
  · rw [if_pos h1]
    refine ⟨fun h => absurd rfl h, fun hd => ?_, fun h => absurd rfl h.1⟩
    exfalso
    rcases (by simpa using h1 :
        pyStrip v = S "nan" ∨ pyStrip v = S "NaT" ∨ pyStrip v = S ""
          ∨ pyStrip v = S "None") with hc | hc | hc | hc <;>
      rw [hc] at hd <;> exact absurd hd (by decide)
  · rw [if_neg h1]
    by_cases h2 : isDateish (pyStrip v) = true
    · rw [if_pos h2]
      exact ⟨fun h => absurd rfl h, fun _ => ⟨rfl, rfl⟩, fun h => absurd rfl h.1⟩
    · have h2f : isDateish (pyStrip v) = false := by simpa using h2
      rw [if_neg h2]
      cases hp : pyFloat? (cleanValue (pyStrip v)) with
      | none =>
        simp only [hp]
        exact ⟨fun h => absurd rfl h, fun hd => absurd hd h2, fun h => h.1 rfl⟩
      | some q =>
        simp only [hp]
        exact ⟨fun _ => ⟨h2f, rfl⟩, fun hd => absurd hd h2, fun h => h.2 rfl⟩

/-- The Value cell "nan" row used to refute the exactly-one claim. -/
def exRowNan : Rec :=
  [(S "Date", S "2024-05-01"), (S "Timestamp", S "12:00:00"),
   (S "Location", S "Room A"), (S "Value", S "nan"), (S "Status", S "OK")]

/-- The record the script builds for `exRowNan`. -/
def exRecNan : Rec :=
  [(S "sensor_type_id", S "SENSOR 2"), (S "record_date", S "2024-05-01"),
   (S "record_time", S "12:00:00"), (S "location", S "Room A"),
   (S "status", S "OK"), (S "is_active", S "false")]

/-- C7 counterexample: a row whose Value cell is the NaN string still maps
to a (six-field) record, but that record carries neither numeric_value
nor text_value — so the mapped record does not populate exactly one of
the two value fields. -/
theorem value_kind_cex :
    mapSensorRow (S "SENSOR 2") exRowNan = some exRecNan ∧
    hasKey exRecNan (S "numeric_value") = false ∧
    hasKey exRecNan (S "text_value") = false :=
  ⟨by decide, by decide, by decide⟩

/-- Example rows and their mapped records for the three value shapes. -/
def exRowPct : Rec :=
  [(S "Date", S "2024-05-01"), (S "Timestamp", S "12:00:00"),
   (S "Location", S "Room A"), (S "Value", S "23.5%"), (S "Status", S "OK")]

/-- Mapped record of `exRowPct`: numeric value "23.5". -/
def exRecPct : Rec :=
  [(S "sensor_type_id", S "SENSOR 2"), (S "record_date", S "2024-05-01"),
   (S "record_time", S "12:00:00"), (S "location", S "Room A"),
   (S "status", S "OK"), (S "is_active", S "false"),
   (S "numeric_value", S "23.5")]

/-- A date-valued cell. -/
def exRowDate : Rec :=
  [(S "Date", S "2024-05-01"), (S "Timestamp", S "12:00:00"),
   (S "Location", S "Room A"), (S "Value", S "2024-05-01"), (S "Status", S "OK")]

/-- Mapped record of `exRowDate`: the date stays textual. -/
def exRecDate : Rec :=
  [(S "sensor_type_id", S "SENSOR 2"), (S "record_date", S "2024-05-01"),
   (S "record_time", S "12:00:00"), (S "location", S "Room A"),
   (S "status", S "OK"), (S "is_active", S "false"),
   (S "text_value", S "2024-05-01")]

/-- A free-text cell. -/
def exRowText : Rec :=
  [(S "Date", S "2024-05-01"), (S "Timestamp", S "12:00:00"),
   (S "Location", S "Room A"), (S "Value", S "FALL_DETECTED"),
   (S "Status", S "OK")]

/-- Mapped record of `exRowText`. -/
def exRecText : Rec :=
  [(S "sensor_type_id", S "SENSOR 2"), (S "record_date", S "2024-05-01"),
   (S "record_time", S "12:00:00"), (S "location", S "Room A"),
   (S "status", S "OK"), (S "is_active", S "false"),
   (S "text_value", S "FALL_DETECTED")]

/-- C7 amended: the mapped record is classified numeric only when the raw
value (stripped) is not date/time-shaped and parses as a float after unit
stripping; date/time-shaped values always land in the textual field; and
the record populates at most one of numeric_value / text_value, never
both — but possibly neither, when the cell is blank or a NaN sentinel.
The concrete rows check "23.5%" → numeric "23.5",
"2024-05-01" → text, "FALL_DETECTED" → text. -/
theorem value_kind_amended :
    (∀ (stid : Str) (row : Rec) (r : Rec), mapSensorRow stid row = some r →
      (hasKey r (S "numeric_value") = true →
        isDateish (pyStrip (getD row (S "Value") [])) = false ∧
        (pyFloat? (cleanValue (pyStrip (getD row (S "Value") [])))).isSome
          = true) ∧
      (isDateish (pyStrip (getD row (S "Value") [])) = true →
        hasKey r (S "text_value") = true ∧
        hasKey r (S "numeric_value") = false) ∧
      ¬(hasKey r (S "numeric_value") = true ∧
        hasKey r (S "text_value") = true)) ∧
    mapSensorRow (S "SENSOR 2") exRowPct = some exRecPct ∧
    getD exRecPct (S "numeric_value") [] = S "23.5" ∧
    mapSensorRow (S "SENSOR 2") exRowDate = some exRecDate ∧
    getD exRecDate (S "text_value") [] = S "2024-05-01" ∧
    hasKey exRecDate (S "numeric_value") = false ∧
    mapSensorRow (S "SENSOR 2") exRowText = some exRecText ∧
    getD exRecText (S "text_value") [] = S "FALL_DETECTED" := by
  refine ⟨?_, by decide, by decide, by decide, by decide, by decide,
    by decide, by decide⟩
  intro stid row r hmap
  obtain ⟨cs1, cs2, cs3⟩ := classifyValue_spec (getD row (S "Value") [])
  simp only [mapSensorRow] at hmap
  by_cases hA : (decide ((classifyValue (getD row (S "Value") [])).1 ≠ [])
      && decide ((classifyValue (getD row (S "Value") [])).1 ≠ S "nan")) = true
  · rw [if_pos hA] at hmap
    have hA1 : (classifyValue (getD row (S "Value") [])).1 ≠ [] := by
      have := (Bool.and_eq_true _ _).mp hA
      simpa using this.1
    split at hmap
    · rw [Option.some_inj] at hmap
      subst hmap
      have hnotext : hasKey (dropEmptyFields
          ([(S "sensor_type_id", stid), (S "record_date", getD row (S "Date") []),
            (S "record_time", getD row (S "Timestamp") []),
            (S "location", getD row (S "Location") []),
            (S "status", getD row (S "Status") []),
            (S "is_active", S "false")] ++
            [(S "numeric_value", (classifyValue (getD row (S "Value") [])).1)]))
          (S "text_value") = false := by
        apply hasKey_dropEmpty_false
        intro p hp
        rcases List.mem_append.mp hp with hp | hp
        · simp only [List.mem_cons, List.not_mem_nil, or_false] at hp
          rcases hp with rfl | rfl | rfl | rfl | rfl | rfl
          · exact pair_fst_ne _ _ _ (by decide)
          · exact pair_fst_ne _ _ _ (by decide)
          · exact pair_fst_ne _ _ _ (by decide)
          · exact pair_fst_ne _ _ _ (by decide)
          · exact pair_fst_ne _ _ _ (by decide)
          · exact pair_fst_ne _ _ _ (by decide)
        · simp only [List.mem_cons, List.not_mem_nil, or_false] at hp
          rcases hp with rfl
          exact pair_fst_ne _ _ _ (by decide)
      refine ⟨fun _ => cs1 hA1, fun hd => ?_, fun h => ?_⟩
      · exact absurd (cs2 hd).1 hA1
      · rw [hnotext] at h
        exact absurd h.2 (by simp)
    · exact absurd hmap (by simp)
  · rw [if_neg hA] at hmap
    by_cases hB : (decide ((classifyValue (getD row (S "Value") [])).2 ≠ [])
        && decide ((classifyValue (getD row (S "Value") [])).2 ≠ S "nan")) = true
    · rw [if_pos hB] at hmap
      split at hmap
      · rw [Option.some_inj] at hmap
        subst hmap
        have hnonum : hasKey (dropEmptyFields
            ([(S "sensor_type_id", stid), (S "record_date", getD row (S "Date") []),
              (S "record_time", getD row (S "Timestamp") []),
              (S "location", getD row (S "Location") []),
              (S "status", getD row (S "Status") []),
              (S "is_active", S "false")] ++
              [(S "text_value", (classifyValue (getD row (S "Value") [])).2)]))
            (S "numeric_value") = false := by
          apply hasKey_dropEmpty_false
          intro p hp
          rcases List.mem_append.mp hp with hp | hp
          · simp only [List.mem_cons, List.not_mem_nil, or_false] at hp
            rcases hp with rfl | rfl | rfl | rfl | rfl | rfl
            · exact pair_fst_ne _ _ _ (by decide)
            · exact pair_fst_ne _ _ _ (by decide)
            · exact pair_fst_ne _ _ _ (by decide)
            · exact pair_fst_ne _ _ _ (by decide)
            · exact pair_fst_ne _ _ _ (by decide)
            · exact pair_fst_ne _ _ _ (by decide)
          · simp only [List.mem_cons, List.not_mem_nil, or_false] at hp
            rcases hp with rfl
            exact pair_fst_ne _ _ _ (by decide)
        refine ⟨fun h => ?_, fun hd => ?_, fun h => ?_⟩
        · rw [hnonum] at h
          exact absurd h (by simp)
        · constructor
          · apply hasKey_of_mem _ _ ((classifyValue (getD row (S "Value") [])).2)
            apply List.mem_filter.mpr
            constructor
            · exact List.mem_append_right _ (by simp)
            · obtain ⟨hd1, hd2⟩ := cs2 hd
              obtain ⟨hv1, hv2, hv3⟩ :=
                isDateish_not_sentinel (pyStrip (getD row (S "Value") [])) hd
              rw [hd2]
              simp [hv1, hv2, hv3]
          · exact hnonum
        · rw [hnonum] at h
          exact absurd h.1 (by simp)
      · exact absurd hmap (by simp)
    · rw [if_neg hB] at hmap
      split at hmap
      · rw [Option.some_inj] at hmap
        subst hmap
        have hnone : ∀ k : Str, k = S "numeric_value" ∨ k = S "text_value" →
            hasKey (dropEmptyFields
              ([(S "sensor_type_id", stid), (S "record_date", getD row (S "Date") []),
                (S "record_time", getD row (S "Timestamp") []),
                (S "location", getD row (S "Location") []),
                (S "status", getD row (S "Status") []),
                (S "is_active", S "false")] ++ [])) k = false := by
          intro k hk
          apply hasKey_dropEmpty_false
          intro p hp
          rcases List.mem_append.mp hp with hp | hp
          · simp only [List.mem_cons, List.not_mem_nil, or_false] at hp
            rcases hp with rfl | rfl | rfl | rfl | rfl | rfl
            · rcases hk with rfl | rfl <;> exact pair_fst_ne _ _ _ (by decide)
            · rcases hk with rfl | rfl <;> exact pair_fst_ne _ _ _ (by decide)
            · rcases hk with rfl | rfl <;> exact pair_fst_ne _ _ _ (by decide)
            · rcases hk with rfl | rfl <;> exact pair_fst_ne _ _ _ (by decide)
            · rcases hk with rfl | rfl <;> exact pair_fst_ne _ _ _ (by decide)
            · rcases hk with rfl | rfl <;> exact pair_fst_ne _ _ _ (by decide)
          · simp at hp
        refine ⟨fun h => ?_, fun hd => ?_, fun h => ?_⟩
        · rw [hnone _ (Or.inl rfl)] at h
          exact absurd h (by simp)
        · exfalso
          obtain ⟨hd1, hd2⟩ := cs2 hd
          obtain ⟨hv1, hv2, hv3⟩ :=
            isDateish_not_sentinel (pyStrip (getD row (S "Value") [])) hd
          apply hB
          rw [hd2]
          simp [hv1, hv2]
        · rw [hnone _ (Or.inl rfl)] at h
          exact absurd h.1 (by simp)
      · exact absurd hmap (by simp)

theorem value_kind_amended_witness :
    ¬(hasKey exRecPct (S "numeric_value") = true ∧
      hasKey exRecPct (S "text_value") = true) :=
  (value_kind_amended.1 (S "SENSOR 2") exRowPct exRecPct (by decide)).2.2

/-- C4 counterexample: `normalize_value` is not idempotent on every
input. For "12:34 .5" the time-of-day cleanup truncates at the first dot
and leaves a trailing space ("12:34 "), which only a second application
strips to "12:34". -/
theorem normalize_idem_cex :
    normalize_value (normalize_value (S "12:34 .5"))
      ≠ normalize_value (S "12:34 .5") := by decide

/-- C4 amended: `normalize_value` is idempotent on every input without a
colon (empty, sentinel, numeric and plain-text paths are all stable), and
in particular idempotent at the three listed inputs, whose values are as
claimed ("20:57:45.000+05:00" → "20:57:45", "3.0" → "3", "nan" → "");
but colon-bearing inputs whose single cleanup pass leaves residue
(a trailing space or a second trailing Z) break the universal claim. -/
theorem normalize_idem_amended :
    (∀ x : Str, x.contains ':' = false →
      normalize_value (normalize_value x) = normalize_value x) ∧
    normalize_value (S "20:57:45.000+05:00") = S "20:57:45" ∧
    normalize_value (S "3.0") = S "3" ∧
    normalize_value (S "nan") = S "" ∧
    normalize_value (normalize_value (S "20:57:45.000+05:00"))
      = normalize_value (S "20:57:45.000+05:00") ∧
    normalize_value (normalize_value (S "3.0")) = normalize_value (S "3.0") ∧
    normalize_value (normalize_value (S "nan")) = normalize_value (S "nan") :=
  ⟨normalize_value_idem_no_colon, by decide, by decide, by decide,
    by decide, by decide, by decide⟩

theorem normalize_idem_amended_witness :
    normalize_value (normalize_value (S "3.5 kg")) = normalize_value (S "3.5 kg") :=
  normalize_idem_amended.1 (S "3.5 kg") (by decide)

theorem fetch_failure_degrades_witness :
    get_existing_records false (Except.error ()) = [] ∧
    (sync_records false (Except.error ()) (fun _ => true)
      [[(S "record_date", S "2024-05-01"),
        (S "record_time", S "12:00:00")]]).skipped = 0 ∧
    (sync_records false (Except.error ()) (fun _ => true)
      [[(S "record_date", S "2024-05-01"),
        (S "record_time", S "12:00:00")]]).attempts
      = [[(S "record_date", S "2024-05-01"), (S "record_time", S "12:00:00")]] ∧
    (sync_records false (Except.error ()) (fun _ => true)
      [[(S "record_date", S "2024-05-01"),
        (S "record_time", S "12:00:00")]]).created
      + (sync_records false (Except.error ()) (fun _ => true)
          [[(S "record_date", S "2024-05-01"),
            (S "record_time", S "12:00:00")]]).failed
      = List.length [[(S "record_date", S "2024-05-01"),
          (S "record_time", S "12:00:00")]] :=
  fetch_failure_degrades false (fun _ => true)
    [[(S "record_date", S "2024-05-01"), (S "record_time", S "12:00:00")]]
    (by decide)

theorem identity_rejection_witness :
    (sync_records false (Except.error ()) (fun _ => true)
      [[(S "record_time", S "12:00:00")]]).failed
      = List.countP (fun r => !identValid false r)
          [[(S "record_time", S "12:00:00")]]
        + (sync_records false (Except.error ()) (fun _ => true)
            [[(S "record_time", S "12:00:00")]]).attempts.countP
            (fun r => !(fun _ => true) r) :=
  (identity_rejection false (Except.error ()) (fun _ => true)
    [[(S "record_time", S "12:00:00")]]).2.1

theorem outcome_conservation_witness :
    sync_records false (Except.error ()) (fun _ => true) []
      = ⟨0, 0, 0, false, [], []⟩ :=
  (outcome_conservation false (Except.error ()) (fun _ => true) []).2.1 rfl
